import Mathlib

/-!
Verification of the benchmark worker / controller rendezvous protocol of
czdeviceinfo.cpp (classes CZUpdateThread and CZCudaDeviceInfo).

The concurrent protocol is embedded as an interleaved transition system with
three threads: the worker thread W executing CZUpdateThread::run, and two
client threads A and B, each executing a script of calls
(testPerformance i, waitPerformance, or the destructor sequence).

Every critical section of the single mutex is one atomic step, which is a
faithful reduction: all shared flags (deviceReady, testRunning, abort, index)
are written under that mutex, a QWaitCondition wait releases the mutex
atomically, and a woken thread re-acquires it before re-checking, so no other
thread can observe an intermediate state of a critical section.  The reads
the code performs outside the mutex (the two abort checks in run and the
index read at the emit site) are separate steps.  wakeOne on a condition
variable with no blocked thread is lost, matching QWaitCondition semantics;
a woken thread is removed from the wait set and must re-acquire the mutex
before continuing.  Spurious wakeups are not modelled.

Ghost fields (pass counters, request counters, the emitted list, markers for
client A's waitPerformance call) instrument the state; they are never read by
any step guard, so they do not alter the behaviour being modelled.
-/

namespace CudaZ

/-- SDK measurement operations invoked by CZCudaDeviceInfo::updateInfo. -/
inductive SdkOp
  | calcBandwidth
  | calcPerformance
  deriving DecidableEq

/-- Shallow embedding of CZCudaDeviceInfo::updateInfo.  The two vendor-SDK
calls are opaque; their return values are the parameters bwRes and pfRes.
The function returns the value updateInfo returns together with the list of
SDK operations it actually invoked:
r = CZCudaCalcDeviceBandwidth(..); if (r == -1) return r;
return CZCudaCalcDevicePerformance(..). -/
def updateInfo (bwRes pfRes : Int) : Int × List SdkOp :=
  let r := bwRes
  if r = -1 then (r, [SdkOp.calcBandwidth])
  else (pfRes, [SdkOp.calcBandwidth, SdkOp.calcPerformance])

/-- Program counter of the worker thread, through CZUpdateThread::run.
prep: running info->prepareDevice().
cs1: about to lock, set deviceReady, wake readyForWork, and wait on newLoop.
waitNewLoop: blocked in newLoop.wait(&mutex).
wakeNewLoop: woken from newLoop.wait, about to re-acquire the mutex,
  copy the index, and unlock.
checkAbort1: the unlocked if(abort) test after the wait.
lock2: about to lock, set testRunning, wake testStart, unlock.
bench: executing info->updateInfo().
lock3: about to lock, clear testRunning, wake testFinish, unlock.
emitStep: the unlocked index read and conditional emit testedPerformance.
checkAbort2: the second unlocked if(abort) test.
loopLock: about to re-lock at the loop bottom and wait on newLoop again.
finalLock: about to lock, clear deviceReady, unlock (after break).
clean: executing info->cleanDevice().
done: run has returned (the thread is joinable and not running). -/
inductive WPc
  | prep | cs1 | waitNewLoop | wakeNewLoop | checkAbort1 | lock2
  | bench | lock3 | emitStep | checkAbort2 | loopLock
  | finalLock | clean | done
  deriving DecidableEq

/-- Program counter of a client thread inside a call.
idle: between calls (next call taken from the script).
tpCS i wp: about to run the first critical section of testPerformance(i)
  (write this->index, start the thread if not running, then either wait on
  readyForWork or wake newLoop and return); wp marks the inner
  testPerformance(-1) call performed by waitPerformance.
tpWaitReady wp: blocked in readyForWork.wait(&mutex).
tpRecheck wp: woken, about to re-acquire and re-test deviceReady.
wpLock: waitPerformance after its inner testPerformance returned, about to
  lock and run the two guarded wait loops.
wpWaitTS / wpRecheckTS: blocked in / woken from testStart.wait.
wpWaitTF / wpRecheckTF: blocked in / woken from testFinish.wait.
dCS: about to run the destructor critical section.
dJoin: blocked in wait() (thread join).
dDone: destructor returned. -/
inductive CPc
  | idle
  | tpCS (i : Int) (wp : Bool)
  | tpWaitReady (wp : Bool)
  | tpRecheck (wp : Bool)
  | wpLock | wpWaitTS | wpRecheckTS | wpWaitTF | wpRecheckTF
  | dCS | dJoin | dDone
  deriving DecidableEq

/-- A call a client thread can make on the worker object. -/
inductive Call
  | testPerf (i : Int)
  | waitPerf
  | destruct
  deriving DecidableEq

/-- Global state of the embedded system.  The concrete fields mirror the
C++ members (wpc is the position of run(); deviceReady, testRunning, abort,
index are the fields guarded by mutex; bwVal / pfVal stand for the measured
fields of the CZDeviceInfo record, zero-initialised by the memset in the
CZCudaDeviceInfo constructor).  started, finished, served, reqCount,
emitted, anySuccess, cleaned, awpMark, awpDone, req2AtFin are ghost
instrumentation never read by a step guard. -/
structure St where
  wpc : WPc
  apc : CPc := CPc.idle
  ascript : List Call := []
  bpc : CPc := CPc.idle
  bscript : List Call := []
  deviceReady : Bool := false
  testRunning : Bool := false
  abort : Bool := false
  index : Int := -1
  bwVal : Nat := 0
  pfVal : Nat := 0
  anySuccess : Bool := false
  cleaned : Bool := false
  started : Nat := 0
  finished : Nat := 0
  served : Nat := 0
  reqCount : Nat := 0
  emitted : List Int := []
  awpMark : Option (Nat × Nat) := none
  awpDone : Bool := false
  req2AtFin : Option Nat := none
  deriving DecidableEq

/-- Initial state: the CZCudaDeviceInfo constructor has zeroed the record,
created the thread with abort = testRunning = deviceReady = false and
index = -1, and called start(), so the worker is about to run
prepareDevice().  aS and bS are the call scripts of the two clients. -/
def init (aS bS : List Call) : St :=
  { wpc := WPc.prep, ascript := aS, bscript := bS }

/-- Effect of newLoop.wakeOne() on the worker pc: the worker is woken only
if it is blocked in newLoop.wait; otherwise the wakeup is lost. -/
def wakeNLpc (w : WPc) : WPc :=
  if w = WPc.waitNewLoop then WPc.wakeNewLoop else w

/-- Effect of testStart.wakeAll() on one client pc. -/
def wakeTS1 : CPc → CPc
  | CPc.wpWaitTS => CPc.wpRecheckTS
  | p => p

/-- Effect of testFinish.wakeAll() on one client pc. -/
def wakeTF1 : CPc → CPc
  | CPc.wpWaitTF => CPc.wpRecheckTF
  | p => p

/-- Effect of readyForWork.wakeAll() on one client pc. -/
def wakeReady1 : CPc → CPc
  | CPc.tpWaitReady wp => CPc.tpRecheck wp
  | p => p

/-- testStart.wakeAll over the whole state. -/
def wakeAllTS (s : St) : St :=
  { s with apc := wakeTS1 s.apc, bpc := wakeTS1 s.bpc }

/-- testFinish.wakeAll over the whole state. -/
def wakeAllTF (s : St) : St :=
  { s with apc := wakeTF1 s.apc, bpc := wakeTF1 s.bpc }

/-- readyForWork.wakeAll over the whole state. -/
def wakeAllReady (s : St) : St :=
  { s with apc := wakeReady1 s.apc, bpc := wakeReady1 s.bpc }

/-- readyForWork.wakeOne: wakes one thread blocked on readyForWork, if any
(the pair is the two client pcs; the worker never waits on readyForWork). -/
def wakeROne : CPc → CPc → CPc × CPc
  | CPc.tpWaitReady w, b => (CPc.tpRecheck w, b)
  | a, CPc.tpWaitReady w => (a, CPc.tpRecheck w)
  | a, b => (a, b)

/-- readyForWork.wakeOne over the whole state. -/
def wakeOneReady (s : St) : St :=
  { s with apc := (wakeROne s.apc s.bpc).1, bpc := (wakeROne s.apc s.bpc).2 }

/-- The if(!isRunning()) start() in testPerformance: the thread is not
running only when run() has returned; start() then runs it again. -/
def restartPc (w : WPc) : WPc :=
  if w = WPc.done then WPc.prep else w

/-- Ghost update: record, at the moment the request of client A's
waitPerformance call writes this->index under the lock, how many passes had
started and finished; only the first waitPerformance call is marked. -/
def markUpd (wp : Bool) (m : Option (Nat × Nat)) (st fin : Nat) :
    Option (Nat × Nat) :=
  if wp then (match m with | none => some (st, fin) | some m0 => some m0) else m

/-- Ghost update: when the second newLoop.wakeOne of the run is fired,
record how many passes had finished at that moment. -/
def req2Upd (rc fin : Nat) (m : Option Nat) : Option Nat :=
  if rc = 1 then some fin else m

/-- State change of the part of the testPerformance critical section that
runs before the deviceReady test: this->index = index, and start() when the
thread is not running.  For client A the ghost marker of a waitPerformance
request is recorded here. -/
def tpEnterA (i : Int) (wp : Bool) (s : St) : St :=
  { s with index := i, wpc := restartPc s.wpc,
           awpMark := markUpd wp s.awpMark s.started s.finished }

/-- Same as tpEnterA for client B (no ghost marker). -/
def tpEnterB (i : Int) (s : St) : St :=
  { s with index := i, wpc := restartPc s.wpc }

/-- newLoop.wakeOne() together with its ghost request accounting, performed
when a testPerformance critical section completes. -/
def fireNewLoopWake (s : St) : St :=
  { s with wpc := wakeNLpc s.wpc,
           reqCount := s.reqCount + 1,
           req2AtFin := req2Upd s.reqCount s.finished s.req2AtFin }

/-- The destructor critical section of CZUpdateThread: under one hold of the
mutex it sets deviceReady, wakes one readyForWork waiter, sets abort, wakes
newLoop, sets testRunning and wakes all testStart waiters, clears
testRunning and wakes all testFinish waiters, then unlocks.  Because the
mutex is held throughout, woken threads re-check only the final flag values,
so the transient testRunning = true is invisible: the net flag effect is
deviceReady := true, abort := true, testRunning := false. -/
def destructCS (s : St) : St :=
  wakeAllTF (wakeAllTS (wakeOneReady
    { s with deviceReady := true, abort := true, testRunning := false,
             wpc := wakeNLpc s.wpc }))

/-- First pc of each call. -/
def startPc : Call → CPc
  | Call.testPerf i => CPc.tpCS i false
  | Call.waitPerf => CPc.tpCS (-1) true
  | Call.destruct => CPc.dCS

/-- One interleaved step of the three threads.  Worker constructors follow
CZUpdateThread::run; client constructors follow testPerformance,
waitPerformance and the destructor, for client A and client B. -/
inductive Step : St → St → Prop
  -- worker: info->prepareDevice(), result r ignored
  | wPrep (s : St) (r : Bool) (h : s.wpc = WPc.prep) :
      Step s { s with wpc := WPc.cs1 }
  -- worker: lock; deviceReady = true; readyForWork.wakeAll(); newLoop.wait
  | wCs1 (s : St) (h : s.wpc = WPc.cs1) :
      Step s (wakeAllReady { s with deviceReady := true, wpc := WPc.waitNewLoop })
  -- worker: woken; re-acquire; index = this->index (self-assignment); unlock
  | wCs2 (s : St) (h : s.wpc = WPc.wakeNewLoop) :
      Step s { s with served := s.served + 1, wpc := WPc.checkAbort1 }
  -- worker: unlocked if(abort) after the wait
  | wCkA1T (s : St) (h : s.wpc = WPc.checkAbort1) (ha : s.abort = true) :
      Step s { s with wpc := WPc.finalLock }
  | wCkA1F (s : St) (h : s.wpc = WPc.checkAbort1) (ha : s.abort = false) :
      Step s { s with wpc := WPc.lock2 }
  -- worker: lock; testRunning = true; testStart.wakeAll(); unlock
  | wCs3 (s : St) (h : s.wpc = WPc.lock2) :
      Step s (wakeAllTS { s with testRunning := true, started := s.started + 1,
                                 wpc := WPc.bench })
  -- worker: info->updateInfo() returning -1 (fields unchanged)
  | wBenchFail (s : St) (h : s.wpc = WPc.bench) :
      Step s { s with wpc := WPc.lock3 }
  -- worker: info->updateInfo() succeeding with measured values bw, pf
  | wBenchOk (s : St) (bw pf : Nat) (h : s.wpc = WPc.bench) :
      Step s { s with bwVal := bw, pfVal := pf, anySuccess := true,
                      wpc := WPc.lock3 }
  -- worker: lock; testRunning = false; testFinish.wakeAll(); unlock
  | wCs4 (s : St) (h : s.wpc = WPc.lock3) :
      Step s (wakeAllTF { s with testRunning := false,
                                 finished := s.finished + 1,
                                 wpc := WPc.emitStep })
  -- worker: unlocked read of the index member; emit when it is not -1
  | wEmit (s : St) (h : s.wpc = WPc.emitStep) :
      Step s { s with emitted := if s.index = -1 then s.emitted
                                 else s.emitted ++ [s.index],
                      wpc := WPc.checkAbort2 }
  -- worker: second unlocked if(abort)
  | wCkA2T (s : St) (h : s.wpc = WPc.checkAbort2) (ha : s.abort = true) :
      Step s { s with wpc := WPc.finalLock }
  | wCkA2F (s : St) (h : s.wpc = WPc.checkAbort2) (ha : s.abort = false) :
      Step s { s with wpc := WPc.loopLock }
  -- worker: lock at the loop bottom, then newLoop.wait releases it
  | wLoopLock (s : St) (h : s.wpc = WPc.loopLock) :
      Step s { s with wpc := WPc.waitNewLoop }
  -- worker: lock; deviceReady = false; unlock (after break)
  | wFinal (s : St) (h : s.wpc = WPc.finalLock) :
      Step s { s with deviceReady := false, wpc := WPc.clean }
  -- worker: info->cleanDevice(), result r ignored; run returns
  | wClean (s : St) (r : Bool) (h : s.wpc = WPc.clean) :
      Step s { s with cleaned := true, wpc := WPc.done }
  -- client A: take the next call of the script
  | aDisp (s : St) (c : Call) (cs : List Call) (h : s.apc = CPc.idle)
      (hs : s.ascript = c :: cs) :
      Step s { s with apc := startPc c, ascript := cs }
  -- client A testPerformance: deviceReady already true: write index,
  -- wake newLoop, unlock, return
  | aTpReady (s : St) (i : Int) (wp : Bool) (h : s.apc = CPc.tpCS i wp)
      (hr : s.deviceReady = true) :
      Step s (fireNewLoopWake
        { tpEnterA i wp s with apc := if wp then CPc.wpLock else CPc.idle })
  -- client A testPerformance: deviceReady false: write index, wait
  | aTpNotReady (s : St) (i : Int) (wp : Bool) (h : s.apc = CPc.tpCS i wp)
      (hr : s.deviceReady = false) :
      Step s { tpEnterA i wp s with apc := CPc.tpWaitReady wp }
  -- client A: woken from readyForWork.wait; re-check deviceReady
  | aTpRecheckReady (s : St) (wp : Bool) (h : s.apc = CPc.tpRecheck wp)
      (hr : s.deviceReady = true) :
      Step s (fireNewLoopWake
        { s with apc := if wp then CPc.wpLock else CPc.idle })
  | aTpRecheckWait (s : St) (wp : Bool) (h : s.apc = CPc.tpRecheck wp)
      (hr : s.deviceReady = false) :
      Step s { s with apc := CPc.tpWaitReady wp }
  -- client A waitPerformance: lock; first loop tests testRunning
  | aWpLockT (s : St) (h : s.apc = CPc.wpLock) (hr : s.testRunning = true) :
      Step s { s with apc := CPc.wpWaitTF }
  | aWpLockF (s : St) (h : s.apc = CPc.wpLock) (hr : s.testRunning = false) :
      Step s { s with apc := CPc.wpWaitTS }
  -- client A: woken from testStart.wait; re-check !testRunning loop
  | aWpTS_T (s : St) (h : s.apc = CPc.wpRecheckTS) (hr : s.testRunning = true) :
      Step s { s with apc := CPc.wpWaitTF }
  | aWpTS_F (s : St) (h : s.apc = CPc.wpRecheckTS) (hr : s.testRunning = false) :
      Step s { s with apc := CPc.wpWaitTS }
  -- client A: woken from testFinish.wait; re-check testRunning loop
  | aWpTF_T (s : St) (h : s.apc = CPc.wpRecheckTF) (hr : s.testRunning = true) :
      Step s { s with apc := CPc.wpWaitTF }
  | aWpTF_F (s : St) (h : s.apc = CPc.wpRecheckTF) (hr : s.testRunning = false) :
      Step s { s with apc := CPc.idle, awpDone := true }
  -- client A: destructor critical section, then wait() for the thread
  | aDCS (s : St) (h : s.apc = CPc.dCS) :
      Step s { destructCS s with apc := CPc.dJoin }
  | aDJoin (s : St) (h : s.apc = CPc.dJoin) (hw : s.wpc = WPc.done) :
      Step s { s with apc := CPc.dDone }
  -- client B: the same call steps
  | bDisp (s : St) (c : Call) (cs : List Call) (h : s.bpc = CPc.idle)
      (hs : s.bscript = c :: cs) :
      Step s { s with bpc := startPc c, bscript := cs }
  | bTpReady (s : St) (i : Int) (wp : Bool) (h : s.bpc = CPc.tpCS i wp)
      (hr : s.deviceReady = true) :
      Step s (fireNewLoopWake
        { tpEnterB i s with bpc := if wp then CPc.wpLock else CPc.idle })
  | bTpNotReady (s : St) (i : Int) (wp : Bool) (h : s.bpc = CPc.tpCS i wp)
      (hr : s.deviceReady = false) :
      Step s { tpEnterB i s with bpc := CPc.tpWaitReady wp }
  | bTpRecheckReady (s : St) (wp : Bool) (h : s.bpc = CPc.tpRecheck wp)
      (hr : s.deviceReady = true) :
      Step s (fireNewLoopWake
        { s with bpc := if wp then CPc.wpLock else CPc.idle })
  | bTpRecheckWait (s : St) (wp : Bool) (h : s.bpc = CPc.tpRecheck wp)
      (hr : s.deviceReady = false) :
      Step s { s with bpc := CPc.tpWaitReady wp }
  | bWpLockT (s : St) (h : s.bpc = CPc.wpLock) (hr : s.testRunning = true) :
      Step s { s with bpc := CPc.wpWaitTF }
  | bWpLockF (s : St) (h : s.bpc = CPc.wpLock) (hr : s.testRunning = false) :
      Step s { s with bpc := CPc.wpWaitTS }
  | bWpTS_T (s : St) (h : s.bpc = CPc.wpRecheckTS) (hr : s.testRunning = true) :
      Step s { s with bpc := CPc.wpWaitTF }
  | bWpTS_F (s : St) (h : s.bpc = CPc.wpRecheckTS) (hr : s.testRunning = false) :
      Step s { s with bpc := CPc.wpWaitTS }
  | bWpTF_T (s : St) (h : s.bpc = CPc.wpRecheckTF) (hr : s.testRunning = true) :
      Step s { s with bpc := CPc.wpWaitTF }
  | bWpTF_F (s : St) (h : s.bpc = CPc.wpRecheckTF) (hr : s.testRunning = false) :
      Step s { s with bpc := CPc.idle }
  | bDCS (s : St) (h : s.bpc = CPc.dCS) :
      Step s { destructCS s with bpc := CPc.dJoin }
  | bDJoin (s : St) (h : s.bpc = CPc.dJoin) (hw : s.wpc = WPc.done) :
      Step s { s with bpc := CPc.dDone }

/-- Reachability through interleaved steps. -/
def Reach (a b : St) : Prop := Relation.ReflTransGen Step a b

/-- Whether a client thread at the given pc with the given script has any
enabled step in state s. -/
def clientEnabled (pc : CPc) (script : List Call) (s : St) : Bool :=
  match pc with
  | CPc.idle => !script.isEmpty
  | CPc.tpCS _ _ => true
  | CPc.tpRecheck _ => true
  | CPc.tpWaitReady _ => false
  | CPc.wpLock => true
  | CPc.wpRecheckTS => true
  | CPc.wpRecheckTF => true
  | CPc.wpWaitTS => false
  | CPc.wpWaitTF => false
  | CPc.dCS => true
  | CPc.dJoin => s.wpc = WPc.done
  | CPc.dDone => false

/-- Whether the worker has any enabled step in state s. -/
def workerEnabled (s : St) : Bool :=
  match s.wpc with
  | WPc.waitNewLoop => false
  | WPc.done => false
  | _ => true

/-- Whether any thread has an enabled step in state s. -/
def stepEnabled (s : St) : Bool :=
  workerEnabled s || clientEnabled s.apc s.ascript s
    || clientEnabled s.bpc s.bscript s

/-- Soundness of the enabledness check: every step starts from a state in
which stepEnabled holds.  Hence stepEnabled s = false means s is a deadlock:
no thread can take any step. -/
theorem step_enabled {s t : St} (h : Step s t) : stepEnabled s = true := by
  cases h <;>
    simp_all [stepEnabled, workerEnabled, clientEnabled, List.isEmpty]

/-- 1 when the worker is between setting and clearing testRunning (a pass
is in flight: executing updateInfo or about to clear the flag), else 0. -/
def passBit (w : WPc) : Nat :=
  if w = WPc.bench ∨ w = WPc.lock3 then 1 else 0

/-- Invariant holding in every reachable state of every script: pass-start
and pass-end events alternate (at most one pass in flight), testRunning is
set only while a pass is in flight, and a finished worker has run the
cleanup. -/
def InvG (s : St) : Prop :=
  s.started = s.finished + passBit s.wpc
  ∧ (s.testRunning = true → s.wpc = WPc.bench ∨ s.wpc = WPc.lock3)
  ∧ (s.wpc = WPc.done → s.cleaned = true)

theorem invG_step {s t : St} (hst : Step s t) (ih : InvG s) : InvG t := by
  obtain ⟨g1, g2, g3⟩ := ih
  unfold InvG passBit at *
  cases hst <;>
    simp_all [wakeAllTS, wakeAllTF, wakeAllReady, fireNewLoopWake, tpEnterA,
      tpEnterB, restartPc, wakeNLpc, destructCS, wakeOneReady, markUpd,
      req2Upd] <;>
    split_ifs at * <;> simp_all

theorem invG_reach {aS bS : List Call} {s : St}
    (hr : Reach (init aS bS) s) : InvG s := by
  induction hr with
  | refl => simp [init, InvG, passBit]
  | tail _ hstep ih => exact invG_step hstep ih

/-- Claim C8: in every reachable state of the worker/controller system, at
most one benchmark pass is running (started and finished invocation counts
differ by at most one); while updateInfo is executing the counts witness
exactly one in-flight pass; and at the point where the run loop is about to
invoke the next pass, the previous invocation has returned and the running
flag has been cleared. -/
theorem onePassAtATime (aS bS : List Call) (s : St)
    (hr : Reach (init aS bS) s) :
    s.finished ≤ s.started ∧ s.started ≤ s.finished + 1
    ∧ (s.wpc = WPc.bench → s.started = s.finished + 1)
    ∧ (s.wpc = WPc.lock2 → s.started = s.finished ∧ s.testRunning = false) := by
  obtain ⟨g1, g2, g3⟩ := invG_reach hr
  refine ⟨?_, ?_, ?_, ?_⟩
  · omega
  · unfold passBit at g1; split_ifs at g1 <;> omega
  · intro h; simp [passBit, h] at g1; omega
  · intro h
    constructor
    · simp [passBit, h] at g1; omega
    · rcases hb : s.testRunning with _ | _
      · rfl
      · rcases g2 hb with h2 | h2 <;> rw [h] at h2 <;> exact absurd h2 (by decide)

theorem onePassAtATime_witness :
    (init [] []).finished ≤ (init [] []).started
    ∧ (init [] []).started ≤ (init [] []).finished + 1
    ∧ ((init [] []).wpc = WPc.bench →
        (init [] []).started = (init [] []).finished + 1)
    ∧ ((init [] []).wpc = WPc.lock2 →
        (init [] []).started = (init [] []).finished
        ∧ (init [] []).testRunning = false) :=
  onePassAtATime [] [] (init [] []) Relation.ReflTransGen.refl

/-! Concrete executions.

Scenario A (claims C1 and C2): client A issues testPerformance(5) and then,
while the worker is mid-benchmark, calls waitPerformance.  The wakeup of the
waitPerformance request is lost, the caller joins the in-flight pass at its
end-wait, and returns when that pass ends; the pass it requested never runs
and the system deadlocks afterwards. -/

/-- Initial state of scenario A. -/
def initA : St := init [Call.testPerf 5, Call.waitPerf] []

/-- Final state of scenario A. -/
def finA : St :=
  { wpc := WPc.waitNewLoop, ascript := [], deviceReady := true,
    index := -1, started := 1, finished := 1, served := 1, reqCount := 2,
    awpMark := some (1, 0), awpDone := true, req2AtFin := some 0 }

theorem reach_finA : Reach initA finA := by
  refine Relation.ReflTransGen.head (Step.wPrep _ true rfl) ?_
  refine Relation.ReflTransGen.head (Step.wCs1 _ rfl) ?_
  refine Relation.ReflTransGen.head (Step.aDisp _ (Call.testPerf 5) _ rfl rfl) ?_
  refine Relation.ReflTransGen.head (Step.aTpReady _ 5 false rfl rfl) ?_
  refine Relation.ReflTransGen.head (Step.wCs2 _ rfl) ?_
  refine Relation.ReflTransGen.head (Step.wCkA1F _ rfl rfl) ?_
  refine Relation.ReflTransGen.head (Step.wCs3 _ rfl) ?_
  refine Relation.ReflTransGen.head (Step.aDisp _ Call.waitPerf _ rfl rfl) ?_
  refine Relation.ReflTransGen.head (Step.aTpReady _ (-1) true rfl rfl) ?_
  refine Relation.ReflTransGen.head (Step.aWpLockT _ rfl rfl) ?_
  refine Relation.ReflTransGen.head (Step.wBenchFail _ rfl) ?_
  refine Relation.ReflTransGen.head (Step.wCs4 _ rfl) ?_
  refine Relation.ReflTransGen.head (Step.aWpTF_F _ rfl rfl) ?_
  refine Relation.ReflTransGen.head (Step.wEmit _ rfl) ?_
  refine Relation.ReflTransGen.head (Step.wCkA2F _ rfl rfl) ?_
  exact Relation.ReflTransGen.single (Step.wLoopLock _ rfl)

/-! Scenario B (claims C3 and C6): two back-to-back testPerformance(5) calls
with no intervening pass completion.  The first wakeup dispatches the
worker; the second arrives while the worker is no longer blocked in
newLoop.wait and is lost.  One single pass runs, its notification reports 5,
and the system then deadlocks with the worker blocked in newLoop.wait
although a recorded request was never serviced. -/

/-- Initial state of scenario B. -/
def initB : St := init [Call.testPerf 5, Call.testPerf 5] []

/-- Final state of scenario B. -/
def finB : St :=
  { wpc := WPc.waitNewLoop, ascript := [], deviceReady := true,
    index := 5, started := 1, finished := 1, served := 1, reqCount := 2,
    emitted := [5], req2AtFin := some 0 }

theorem reach_finB : Reach initB finB := by
  refine Relation.ReflTransGen.head (Step.wPrep _ true rfl) ?_
  refine Relation.ReflTransGen.head (Step.wCs1 _ rfl) ?_
  refine Relation.ReflTransGen.head (Step.aDisp _ (Call.testPerf 5) _ rfl rfl) ?_
  refine Relation.ReflTransGen.head (Step.aTpReady _ 5 false rfl rfl) ?_
  refine Relation.ReflTransGen.head (Step.aDisp _ (Call.testPerf 5) _ rfl rfl) ?_
  refine Relation.ReflTransGen.head (Step.aTpReady _ 5 false rfl rfl) ?_
  refine Relation.ReflTransGen.head (Step.wCs2 _ rfl) ?_
  refine Relation.ReflTransGen.head (Step.wCkA1F _ rfl rfl) ?_
  refine Relation.ReflTransGen.head (Step.wCs3 _ rfl) ?_
  refine Relation.ReflTransGen.head (Step.wBenchFail _ rfl) ?_
  refine Relation.ReflTransGen.head (Step.wCs4 _ rfl) ?_
  refine Relation.ReflTransGen.head (Step.wEmit _ rfl) ?_
  refine Relation.ReflTransGen.head (Step.wCkA2F _ rfl rfl) ?_
  exact Relation.ReflTransGen.single (Step.wLoopLock _ rfl)

/-! Scenario C (claim C4): the destructor runs before the worker has reached
its first newLoop.wait (the worker is still inside prepareDevice).  The
destructor's newLoop.wakeOne is lost; the worker then blocks in newLoop.wait
for ever although abort is set, and the destructor's wait() never returns. -/

/-- Initial state of scenario C. -/
def initC : St := init [] [Call.destruct]

/-- Final state of scenario C: a total deadlock with the destructor blocked
in wait() and the worker blocked in newLoop.wait. -/
def finC : St :=
  { wpc := WPc.waitNewLoop, bpc := CPc.dJoin, bscript := [],
    deviceReady := true, abort := true }

theorem reach_finC : Reach initC finC := by
  refine Relation.ReflTransGen.head (Step.bDisp _ Call.destruct _ rfl rfl) ?_
  refine Relation.ReflTransGen.head (Step.bDCS _ rfl) ?_
  refine Relation.ReflTransGen.head (Step.wPrep _ true rfl) ?_
  exact Relation.ReflTransGen.single (Step.wCs1 _ rfl)

/-! Scenario D (claim C5): client B issues testPerformance(5); while the
worker is mid-benchmark client A calls waitPerformance, whose wakeup is
lost; the pass ends before A reaches its begin-wait, so A blocks in
testStart.wait.  B then runs the destructor: its testStart.wakeAll wakes A,
but because the destructor toggles testRunning back to false under the same
hold of the mutex, A re-checks !testRunning, re-enters the wait and is never
woken again.  Teardown completes; A is blocked for ever. -/

/-- Initial state of scenario D. -/
def initD : St := init [Call.waitPerf] [Call.testPerf 5, Call.destruct]

/-- Final state of scenario D: teardown has completed (worker done and
cleaned, destructor returned) while client A is still blocked waiting for a
pass to begin. -/
def finD : St :=
  { wpc := WPc.done, apc := CPc.wpWaitTS, bpc := CPc.dDone,
    ascript := [], bscript := [], deviceReady := false, abort := true,
    index := -1, cleaned := true, started := 1, finished := 1, served := 2,
    reqCount := 2, awpMark := some (1, 0), req2AtFin := some 0 }

theorem reach_finD : Reach initD finD := by
  refine Relation.ReflTransGen.head (Step.wPrep _ true rfl) ?_
  refine Relation.ReflTransGen.head (Step.wCs1 _ rfl) ?_
  refine Relation.ReflTransGen.head (Step.bDisp _ (Call.testPerf 5) _ rfl rfl) ?_
  refine Relation.ReflTransGen.head (Step.bTpReady _ 5 false rfl rfl) ?_
  refine Relation.ReflTransGen.head (Step.wCs2 _ rfl) ?_
  refine Relation.ReflTransGen.head (Step.wCkA1F _ rfl rfl) ?_
  refine Relation.ReflTransGen.head (Step.wCs3 _ rfl) ?_
  refine Relation.ReflTransGen.head (Step.aDisp _ Call.waitPerf _ rfl rfl) ?_
  refine Relation.ReflTransGen.head (Step.aTpReady _ (-1) true rfl rfl) ?_
  refine Relation.ReflTransGen.head (Step.wBenchFail _ rfl) ?_
  refine Relation.ReflTransGen.head (Step.wCs4 _ rfl) ?_
  refine Relation.ReflTransGen.head (Step.wEmit _ rfl) ?_
  refine Relation.ReflTransGen.head (Step.wCkA2F _ rfl rfl) ?_
  refine Relation.ReflTransGen.head (Step.wLoopLock _ rfl) ?_
  refine Relation.ReflTransGen.head (Step.aWpLockF _ rfl rfl) ?_
  refine Relation.ReflTransGen.head (Step.bDisp _ Call.destruct _ rfl rfl) ?_
  refine Relation.ReflTransGen.head (Step.bDCS _ rfl) ?_
  refine Relation.ReflTransGen.head (Step.aWpTS_F _ rfl rfl) ?_
  refine Relation.ReflTransGen.head (Step.wCs2 _ rfl) ?_
  refine Relation.ReflTransGen.head (Step.wCkA1T _ rfl rfl) ?_
  refine Relation.ReflTransGen.head (Step.wFinal _ rfl) ?_
  refine Relation.ReflTransGen.head (Step.wClean _ true rfl) ?_
  exact Relation.ReflTransGen.single (Step.bDJoin _ rfl rfl)

/-! Invariants of destructor-free executions (normal operation: the object
is not being destroyed while calls are in flight). -/

/-- The script contains no destructor call. -/
def NoDestruct (l : List Call) : Prop := ∀ c ∈ l, c ≠ Call.destruct

/-- A client pc that is not inside the destructor. -/
def dfClientPc (p : CPc) : Prop :=
  p ≠ CPc.dCS ∧ p ≠ CPc.dJoin ∧ p ≠ CPc.dDone

/-- Basic invariant of destructor-free systems: abort is never set, the
worker never reaches its exit path, deviceReady holds exactly once the
worker has passed its initial prepare/signal phase, and while a pass is
in flight (bench or lock3) the running flag is set. -/
def InvB (s : St) : Prop :=
  NoDestruct s.ascript ∧ NoDestruct s.bscript
  ∧ dfClientPc s.apc ∧ dfClientPc s.bpc
  ∧ s.abort = false
  ∧ (s.deviceReady = true ↔ (s.wpc ≠ WPc.prep ∧ s.wpc ≠ WPc.cs1))
  ∧ s.wpc ≠ WPc.finalLock ∧ s.wpc ≠ WPc.clean ∧ s.wpc ≠ WPc.done
  ∧ ((s.wpc = WPc.bench ∨ s.wpc = WPc.lock3) → s.testRunning = true)

theorem wakeTS1_apply (p : CPc) :
    wakeTS1 p = if p = CPc.wpWaitTS then CPc.wpRecheckTS else p := by
  cases p <;> rfl

theorem wakeTF1_apply (p : CPc) :
    wakeTF1 p = if p = CPc.wpWaitTF then CPc.wpRecheckTF else p := by
  cases p <;> rfl

theorem dfClientPc_wakeReady1 (p : CPc) (h : dfClientPc p) :
    dfClientPc (wakeReady1 p) := by
  cases p <;> simp_all [wakeReady1, dfClientPc]

theorem dfClientPc_wakeTS1 (p : CPc) (h : dfClientPc p) :
    dfClientPc (wakeTS1 p) := by
  cases p <;> simp_all [wakeTS1, dfClientPc]

theorem dfClientPc_wakeTF1 (p : CPc) (h : dfClientPc p) :
    dfClientPc (wakeTF1 p) := by
  cases p <;> simp_all [wakeTF1, dfClientPc]

theorem wakeNL_eq (w : WPc) :
    (wakeNLpc w = WPc.prep ↔ w = WPc.prep)
    ∧ (wakeNLpc w = WPc.cs1 ↔ w = WPc.cs1)
    ∧ (wakeNLpc w = WPc.finalLock ↔ w = WPc.finalLock)
    ∧ (wakeNLpc w = WPc.clean ↔ w = WPc.clean)
    ∧ (wakeNLpc w = WPc.done ↔ w = WPc.done)
    ∧ (wakeNLpc w = WPc.bench ↔ w = WPc.bench)
    ∧ (wakeNLpc w = WPc.lock3 ↔ w = WPc.lock3) := by
  cases w <;> simp [wakeNLpc]

set_option maxHeartbeats 2000000 in
theorem invB_step {s t : St} (hst : Step s t) (ih : InvB s) : InvB t := by
  obtain ⟨b1, b2, b3, b4, b5, b6, b7, b8, b9, b10⟩ := ih
  cases hst with
  | wPrep r h =>
      refine ⟨b1, b2, b3, b4, b5, ?_, by simp, by simp, by simp, by simp⟩
      rw [h] at b6; simp_all [InvB]
  | wCs1 h =>
      exact ⟨b1, b2, dfClientPc_wakeReady1 _ b3, dfClientPc_wakeReady1 _ b4,
        b5, by simp [wakeAllReady], by simp [wakeAllReady],
        by simp [wakeAllReady], by simp [wakeAllReady], by simp [wakeAllReady]⟩
  | wCs2 h =>
      refine ⟨b1, b2, b3, b4, b5, ?_, by simp, by simp, by simp, by simp⟩
      rw [h] at b6; simp_all
  | wCkA1T h ha => exact absurd ha (by simp [b5])
  | wCkA1F h ha =>
      refine ⟨b1, b2, b3, b4, b5, ?_, by simp, by simp, by simp, by simp⟩
      rw [h] at b6; simp_all
  | wCs3 h =>
      refine ⟨b1, b2, dfClientPc_wakeTS1 _ b3, dfClientPc_wakeTS1 _ b4, b5,
        ?_, by simp [wakeAllTS], by simp [wakeAllTS], by simp [wakeAllTS],
        by simp [wakeAllTS]⟩
      rw [h] at b6; simp_all [wakeAllTS]
  | wBenchFail h =>
      refine ⟨b1, b2, b3, b4, b5, ?_, by simp, by simp, by simp,
        fun _ => b10 (Or.inl h)⟩
      rw [h] at b6; simp_all
  | wBenchOk bw pf h =>
      refine ⟨b1, b2, b3, b4, b5, ?_, by simp, by simp, by simp,
        fun _ => b10 (Or.inl h)⟩
      rw [h] at b6; simp_all
  | wCs4 h =>
      refine ⟨b1, b2, dfClientPc_wakeTF1 _ b3, dfClientPc_wakeTF1 _ b4, b5,
        ?_, by simp [wakeAllTF], by simp [wakeAllTF], by simp [wakeAllTF],
        by simp [wakeAllTF]⟩
      rw [h] at b6; simp_all [wakeAllTF]
  | wEmit h =>
      refine ⟨b1, b2, b3, b4, b5, ?_, by simp, by simp, by simp, by simp⟩
      rw [h] at b6; simp_all
  | wCkA2T h ha => exact absurd ha (by simp [b5])
  | wCkA2F h ha =>
      refine ⟨b1, b2, b3, b4, b5, ?_, by simp, by simp, by simp, by simp⟩
      rw [h] at b6; simp_all
  | wLoopLock h =>
      refine ⟨b1, b2, b3, b4, b5, ?_, by simp, by simp, by simp, by simp⟩
      rw [h] at b6; simp_all
  | wFinal h => exact absurd h b7
  | wClean r h => exact absurd h b8
  | aDisp c cs h hs =>
      have hc : c ≠ Call.destruct := b1 c (by rw [hs]; exact List.mem_cons_self c cs)
      refine ⟨?_, b2, ?_, b4, b5, b6, b7, b8, b9, b10⟩
      · intro x hx; exact b1 x (by rw [hs]; exact List.mem_cons_of_mem c hx)
      · cases c <;> simp_all [startPc, dfClientPc]
  | aTpReady i wp h hr =>
      have hre : restartPc s.wpc = s.wpc := by simp [restartPc, b9]
      obtain ⟨e1, e2, e3, e4, e5, e6, e7⟩ := wakeNL_eq s.wpc
      refine ⟨b1, b2, ?_, b4, b5, ?_, ?_, ?_, ?_, ?_⟩
      · show dfClientPc (if wp then CPc.wpLock else CPc.idle)
        cases wp <;> simp [dfClientPc]
      · show s.deviceReady = true ↔
          wakeNLpc (restartPc s.wpc) ≠ WPc.prep ∧ wakeNLpc (restartPc s.wpc) ≠ WPc.cs1
        rw [hre]
        constructor
        · intro hd
          exact ⟨fun hc => (b6.mp hd).1 (e1.mp hc), fun hc => (b6.mp hd).2 (e2.mp hc)⟩
        · intro _; exact hr
      · show wakeNLpc (restartPc s.wpc) ≠ WPc.finalLock
        rw [hre]; exact fun hc => b7 (e3.mp hc)
      · show wakeNLpc (restartPc s.wpc) ≠ WPc.clean
        rw [hre]; exact fun hc => b8 (e4.mp hc)
      · show wakeNLpc (restartPc s.wpc) ≠ WPc.done
        rw [hre]; exact fun hc => b9 (e5.mp hc)
      · show wakeNLpc (restartPc s.wpc) = WPc.bench ∨
            wakeNLpc (restartPc s.wpc) = WPc.lock3 → s.testRunning = true
        rw [hre]
        intro hc
        exact b10 (hc.imp e6.mp e7.mp)
  | aTpNotReady i wp h hr =>
      have hre : restartPc s.wpc = s.wpc := by simp [restartPc, b9]
      refine ⟨b1, b2, by simp [dfClientPc], b4, b5, ?_, ?_, ?_, ?_, ?_⟩
      · show s.deviceReady = true ↔ restartPc s.wpc ≠ WPc.prep ∧ restartPc s.wpc ≠ WPc.cs1
        rw [hre]; exact b6
      · show restartPc s.wpc ≠ WPc.finalLock
        rw [hre]; exact b7
      · show restartPc s.wpc ≠ WPc.clean
        rw [hre]; exact b8
      · show restartPc s.wpc ≠ WPc.done
        rw [hre]; exact b9
      · show restartPc s.wpc = WPc.bench ∨ restartPc s.wpc = WPc.lock3 → _
        rw [hre]; exact b10
  | aTpRecheckReady wp h hr =>
      obtain ⟨e1, e2, e3, e4, e5, e6, e7⟩ := wakeNL_eq s.wpc
      refine ⟨b1, b2, ?_, b4, b5, ?_, ?_, ?_, ?_, ?_⟩
      · show dfClientPc (if wp then CPc.wpLock else CPc.idle)
        cases wp <;> simp [dfClientPc]
      · show s.deviceReady = true ↔
          wakeNLpc s.wpc ≠ WPc.prep ∧ wakeNLpc s.wpc ≠ WPc.cs1
        constructor
        · intro hd
          exact ⟨fun hc => (b6.mp hd).1 (e1.mp hc), fun hc => (b6.mp hd).2 (e2.mp hc)⟩
        · intro _; exact hr
      · show wakeNLpc s.wpc ≠ WPc.finalLock
        exact fun hc => b7 (e3.mp hc)
      · show wakeNLpc s.wpc ≠ WPc.clean
        exact fun hc => b8 (e4.mp hc)
      · show wakeNLpc s.wpc ≠ WPc.done
        exact fun hc => b9 (e5.mp hc)
      · show wakeNLpc s.wpc = WPc.bench ∨ wakeNLpc s.wpc = WPc.lock3 →
            s.testRunning = true
        intro hc
        exact b10 (hc.imp e6.mp e7.mp)
  | aTpRecheckWait wp h hr =>
      exact ⟨b1, b2, by simp [dfClientPc], b4, b5, b6, b7, b8, b9, b10⟩
  | aWpLockT h hr =>
      exact ⟨b1, b2, by simp [dfClientPc], b4, b5, b6, b7, b8, b9, b10⟩
  | aWpLockF h hr =>
      exact ⟨b1, b2, by simp [dfClientPc], b4, b5, b6, b7, b8, b9, b10⟩
  | aWpTS_T h hr =>
      exact ⟨b1, b2, by simp [dfClientPc], b4, b5, b6, b7, b8, b9, b10⟩
  | aWpTS_F h hr =>
      exact ⟨b1, b2, by simp [dfClientPc], b4, b5, b6, b7, b8, b9, b10⟩
  | aWpTF_T h hr =>
      exact ⟨b1, b2, by simp [dfClientPc], b4, b5, b6, b7, b8, b9, b10⟩
  | aWpTF_F h hr =>
      exact ⟨b1, b2, by simp [dfClientPc], b4, b5, b6, b7, b8, b9, b10⟩
  | aDCS h => exact absurd h b3.1
  | aDJoin h hw => exact absurd hw b9
  | bDisp c cs h hs =>
      have hc : c ≠ Call.destruct := b2 c (by rw [hs]; exact List.mem_cons_self c cs)
      refine ⟨b1, ?_, b3, ?_, b5, b6, b7, b8, b9, b10⟩
      · intro x hx; exact b2 x (by rw [hs]; exact List.mem_cons_of_mem c hx)
      · cases c <;> simp_all [startPc, dfClientPc]
  | bTpReady i wp h hr =>
      have hre : restartPc s.wpc = s.wpc := by simp [restartPc, b9]
      obtain ⟨e1, e2, e3, e4, e5, e6, e7⟩ := wakeNL_eq s.wpc
      refine ⟨b1, b2, b3, ?_, b5, ?_, ?_, ?_, ?_, ?_⟩
      · show dfClientPc (if wp then CPc.wpLock else CPc.idle)
        cases wp <;> simp [dfClientPc]
      · show s.deviceReady = true ↔
          wakeNLpc (restartPc s.wpc) ≠ WPc.prep ∧ wakeNLpc (restartPc s.wpc) ≠ WPc.cs1
        rw [hre]
        constructor
        · intro hd
          exact ⟨fun hc => (b6.mp hd).1 (e1.mp hc), fun hc => (b6.mp hd).2 (e2.mp hc)⟩
        · intro _; exact hr
      · show wakeNLpc (restartPc s.wpc) ≠ WPc.finalLock
        rw [hre]; exact fun hc => b7 (e3.mp hc)
      · show wakeNLpc (restartPc s.wpc) ≠ WPc.clean
        rw [hre]; exact fun hc => b8 (e4.mp hc)
      · show wakeNLpc (restartPc s.wpc) ≠ WPc.done
        rw [hre]; exact fun hc => b9 (e5.mp hc)
      · show wakeNLpc (restartPc s.wpc) = WPc.bench ∨
            wakeNLpc (restartPc s.wpc) = WPc.lock3 → s.testRunning = true
        rw [hre]
        intro hc
        exact b10 (hc.imp e6.mp e7.mp)
  | bTpNotReady i wp h hr =>
      have hre : restartPc s.wpc = s.wpc := by simp [restartPc, b9]
      refine ⟨b1, b2, b3, by simp [dfClientPc], b5, ?_, ?_, ?_, ?_, ?_⟩
      · show s.deviceReady = true ↔ restartPc s.wpc ≠ WPc.prep ∧ restartPc s.wpc ≠ WPc.cs1
        rw [hre]; exact b6
      · show restartPc s.wpc ≠ WPc.finalLock
        rw [hre]; exact b7
      · show restartPc s.wpc ≠ WPc.clean
        rw [hre]; exact b8
      · show restartPc s.wpc ≠ WPc.done
        rw [hre]; exact b9
      · show restartPc s.wpc = WPc.bench ∨ restartPc s.wpc = WPc.lock3 → _
        rw [hre]; exact b10
  | bTpRecheckReady wp h hr =>
      obtain ⟨e1, e2, e3, e4, e5, e6, e7⟩ := wakeNL_eq s.wpc
      refine ⟨b1, b2, b3, ?_, b5, ?_, ?_, ?_, ?_, ?_⟩
      · show dfClientPc (if wp then CPc.wpLock else CPc.idle)
        cases wp <;> simp [dfClientPc]
      · show s.deviceReady = true ↔
          wakeNLpc s.wpc ≠ WPc.prep ∧ wakeNLpc s.wpc ≠ WPc.cs1
        constructor
        · intro hd
          exact ⟨fun hc => (b6.mp hd).1 (e1.mp hc), fun hc => (b6.mp hd).2 (e2.mp hc)⟩
        · intro _; exact hr
      · show wakeNLpc s.wpc ≠ WPc.finalLock
        exact fun hc => b7 (e3.mp hc)
      · show wakeNLpc s.wpc ≠ WPc.clean
        exact fun hc => b8 (e4.mp hc)
      · show wakeNLpc s.wpc ≠ WPc.done
        exact fun hc => b9 (e5.mp hc)
      · show wakeNLpc s.wpc = WPc.bench ∨ wakeNLpc s.wpc = WPc.lock3 →
            s.testRunning = true
        intro hc
        exact b10 (hc.imp e6.mp e7.mp)
  | bTpRecheckWait wp h hr =>
      exact ⟨b1, b2, b3, by simp [dfClientPc], b5, b6, b7, b8, b9, b10⟩
  | bWpLockT h hr =>
      exact ⟨b1, b2, b3, by simp [dfClientPc], b5, b6, b7, b8, b9, b10⟩
  | bWpLockF h hr =>
      exact ⟨b1, b2, b3, by simp [dfClientPc], b5, b6, b7, b8, b9, b10⟩
  | bWpTS_T h hr =>
      exact ⟨b1, b2, b3, by simp [dfClientPc], b5, b6, b7, b8, b9, b10⟩
  | bWpTS_F h hr =>
      exact ⟨b1, b2, b3, by simp [dfClientPc], b5, b6, b7, b8, b9, b10⟩
  | bWpTF_T h hr =>
      exact ⟨b1, b2, b3, by simp [dfClientPc], b5, b6, b7, b8, b9, b10⟩
  | bWpTF_F h hr =>
      exact ⟨b1, b2, b3, by simp [dfClientPc], b5, b6, b7, b8, b9, b10⟩
  | bDCS h => exact absurd h b4.1
  | bDJoin h hw => exact absurd hw b9

/-- 1 while the worker is between leaving newLoop.wait and clearing
testRunning (one service of the loop in progress), else 0. -/
def csBit (w : WPc) : Nat :=
  if w = WPc.checkAbort1 ∨ w = WPc.lock2 ∨ w = WPc.bench ∨ w = WPc.lock3
  then 1 else 0

theorem csBit_wakeNL (w : WPc) : csBit (wakeNLpc w) = csBit w := by
  cases w <;> simp [wakeNLpc, csBit]

theorem wakeNL_eq2 (w : WPc) :
    (wakeNLpc w = WPc.emitStep ↔ w = WPc.emitStep)
    ∧ (wakeNLpc w = WPc.checkAbort2 ↔ w = WPc.checkAbort2)
    ∧ (wakeNLpc w = WPc.loopLock ↔ w = WPc.loopLock) := by
  cases w <;> simp [wakeNLpc]

/-- Count invariant of destructor-free systems: each exit from newLoop.wait
is accounted by a completed pass or the one in progress; the loop tail
implies at least one finished pass; and once a request was fired the worker
has been woken at least once. -/
def InvC (s : St) : Prop :=
  s.served = s.finished + csBit s.wpc
  ∧ ((s.wpc = WPc.emitStep ∨ s.wpc = WPc.checkAbort2 ∨ s.wpc = WPc.loopLock) →
      1 ≤ s.finished)
  ∧ (1 ≤ s.reqCount → 1 ≤ s.served ∨ s.wpc = WPc.wakeNewLoop)

theorem served_pos (s : St)
    (b6 : s.deviceReady = true ↔ (s.wpc ≠ WPc.prep ∧ s.wpc ≠ WPc.cs1))
    (b7 : s.wpc ≠ WPc.finalLock) (b8 : s.wpc ≠ WPc.clean)
    (b9 : s.wpc ≠ WPc.done)
    (c1 : s.served = s.finished + csBit s.wpc)
    (c2 : (s.wpc = WPc.emitStep ∨ s.wpc = WPc.checkAbort2 ∨ s.wpc = WPc.loopLock) →
      1 ≤ s.finished)
    (hr : s.deviceReady = true)
    (hw1 : s.wpc ≠ WPc.waitNewLoop) (hw2 : s.wpc ≠ WPc.wakeNewLoop) :
    1 ≤ s.served := by
  have h6 := b6.mp hr
  cases hww : s.wpc <;> simp_all [csBit]

set_option maxHeartbeats 2000000 in
theorem invC_step {s t : St} (hst : Step s t) (hB : InvB s) (ih : InvC s) :
    InvC t := by
  obtain ⟨b1, b2, b3, b4, b5, b6, b7, b8, b9, b10⟩ := hB
  obtain ⟨c1, c2, c3⟩ := ih
  cases hst with
  | wPrep r h =>
      exact ⟨by simp_all [csBit], by simp,
        fun hq => Or.inl ((c3 hq).resolve_right (by simp [h]))⟩
  | wCs1 h =>
      exact ⟨by simp_all [csBit, wakeAllReady], by simp [wakeAllReady],
        fun hq => Or.inl ((c3 hq).resolve_right (by simp [h]))⟩
  | wCs2 h =>
      exact ⟨by simp_all [csBit], by simp_all [csBit],
        fun _ => Or.inl (show (1:Nat) ≤ s.served + 1 by omega)⟩
  | wCkA1T h ha => exact absurd ha (by simp [b5])
  | wCkA1F h ha =>
      exact ⟨by simp_all [csBit], by simp,
        fun _ => Or.inl (show (1:Nat) ≤ s.served by rw [h] at c1; simp [csBit] at c1; omega)⟩
  | wCs3 h =>
      exact ⟨by simp_all [csBit, wakeAllTS], by simp [wakeAllTS],
        fun _ => Or.inl (show (1:Nat) ≤ s.served by rw [h] at c1; simp [csBit] at c1; omega)⟩
  | wBenchFail h =>
      exact ⟨by simp_all [csBit], by simp,
        fun _ => Or.inl (show (1:Nat) ≤ s.served by rw [h] at c1; simp [csBit] at c1; omega)⟩
  | wBenchOk bw pf h =>
      exact ⟨by simp_all [csBit], by simp,
        fun _ => Or.inl (show (1:Nat) ≤ s.served by rw [h] at c1; simp [csBit] at c1; omega)⟩
  | wCs4 h =>
      refine ⟨?_, fun _ => (by omega : 1 ≤ s.finished + 1),
        fun _ => Or.inl (show (1:Nat) ≤ s.served by rw [h] at c1; simp [csBit] at c1; omega)⟩
      show s.served = s.finished + 1 + csBit WPc.emitStep
      rw [h] at c1; simp [csBit] at c1 ⊢; omega
  | wEmit h =>
      exact ⟨by simp_all [csBit], fun _ => c2 (Or.inl h),
        fun hq => Or.inl ((c3 hq).resolve_right (by simp [h]))⟩
  | wCkA2T h ha => exact absurd ha (by simp [b5])
  | wCkA2F h ha =>
      exact ⟨by simp_all [csBit], fun _ => c2 (Or.inr (Or.inl h)),
        fun hq => Or.inl ((c3 hq).resolve_right (by simp [h]))⟩
  | wLoopLock h =>
      exact ⟨by simp_all [csBit], by simp,
        fun hq => Or.inl ((c3 hq).resolve_right (by simp [h]))⟩
  | wFinal h => exact absurd h b7
  | wClean r h => exact absurd h b8
  | aDisp c cs h hs => exact ⟨c1, c2, c3⟩
  | aTpReady i wp h hr =>
      have hre : restartPc s.wpc = s.wpc := by simp [restartPc, b9]
      obtain ⟨f1, f2, f3⟩ := wakeNL_eq2 s.wpc
      refine ⟨?_, ?_, ?_⟩
      · show s.served = s.finished + csBit (wakeNLpc (restartPc s.wpc))
        rw [hre, csBit_wakeNL]; exact c1
      · show wakeNLpc (restartPc s.wpc) = WPc.emitStep ∨
            wakeNLpc (restartPc s.wpc) = WPc.checkAbort2 ∨
            wakeNLpc (restartPc s.wpc) = WPc.loopLock → 1 ≤ s.finished
        rw [hre]
        rintro (hc | hc | hc)
        exacts [c2 (Or.inl (f1.mp hc)), c2 (Or.inr (Or.inl (f2.mp hc))),
          c2 (Or.inr (Or.inr (f3.mp hc)))]
      · show 1 ≤ s.reqCount + 1 →
            1 ≤ s.served ∨ wakeNLpc (restartPc s.wpc) = WPc.wakeNewLoop
        rw [hre]
        intro _
        by_cases hw1 : s.wpc = WPc.waitNewLoop
        · exact Or.inr (by simp [wakeNLpc, hw1])
        · by_cases hw2 : s.wpc = WPc.wakeNewLoop
          · exact Or.inr (by simp [wakeNLpc, hw1, hw2])
          · exact Or.inl (served_pos s b6 b7 b8 b9 c1 c2 hr hw1 hw2)
  | aTpNotReady i wp h hr =>
      have hre : restartPc s.wpc = s.wpc := by simp [restartPc, b9]
      refine ⟨?_, ?_, ?_⟩
      · show s.served = s.finished + csBit (restartPc s.wpc)
        rw [hre]; exact c1
      · show restartPc s.wpc = WPc.emitStep ∨ restartPc s.wpc = WPc.checkAbort2 ∨
            restartPc s.wpc = WPc.loopLock → 1 ≤ s.finished
        rw [hre]; exact c2
      · show 1 ≤ s.reqCount → 1 ≤ s.served ∨ restartPc s.wpc = WPc.wakeNewLoop
        rw [hre]; exact c3
  | aTpRecheckReady wp h hr =>
      obtain ⟨f1, f2, f3⟩ := wakeNL_eq2 s.wpc
      refine ⟨?_, ?_, ?_⟩
      · show s.served = s.finished + csBit (wakeNLpc s.wpc)
        rw [csBit_wakeNL]; exact c1
      · show wakeNLpc s.wpc = WPc.emitStep ∨ wakeNLpc s.wpc = WPc.checkAbort2 ∨
            wakeNLpc s.wpc = WPc.loopLock → 1 ≤ s.finished
        rintro (hc | hc | hc)
        exacts [c2 (Or.inl (f1.mp hc)), c2 (Or.inr (Or.inl (f2.mp hc))),
          c2 (Or.inr (Or.inr (f3.mp hc)))]
      · show 1 ≤ s.reqCount + 1 →
            1 ≤ s.served ∨ wakeNLpc s.wpc = WPc.wakeNewLoop
        intro _
        by_cases hw1 : s.wpc = WPc.waitNewLoop
        · exact Or.inr (by simp [wakeNLpc, hw1])
        · by_cases hw2 : s.wpc = WPc.wakeNewLoop
          · exact Or.inr (by simp [wakeNLpc, hw1, hw2])
          · exact Or.inl (served_pos s b6 b7 b8 b9 c1 c2 hr hw1 hw2)
  | aTpRecheckWait wp h hr => exact ⟨c1, c2, c3⟩
  | aWpLockT h hr => exact ⟨c1, c2, c3⟩
  | aWpLockF h hr => exact ⟨c1, c2, c3⟩
  | aWpTS_T h hr => exact ⟨c1, c2, c3⟩
  | aWpTS_F h hr => exact ⟨c1, c2, c3⟩
  | aWpTF_T h hr => exact ⟨c1, c2, c3⟩
  | aWpTF_F h hr => exact ⟨c1, c2, c3⟩
  | aDCS h => exact absurd h b3.1
  | aDJoin h hw => exact absurd hw b9
  | bDisp c cs h hs => exact ⟨c1, c2, c3⟩
  | bTpReady i wp h hr =>
      have hre : restartPc s.wpc = s.wpc := by simp [restartPc, b9]
      obtain ⟨f1, f2, f3⟩ := wakeNL_eq2 s.wpc
      refine ⟨?_, ?_, ?_⟩
      · show s.served = s.finished + csBit (wakeNLpc (restartPc s.wpc))
        rw [hre, csBit_wakeNL]; exact c1
      · show wakeNLpc (restartPc s.wpc) = WPc.emitStep ∨
            wakeNLpc (restartPc s.wpc) = WPc.checkAbort2 ∨
            wakeNLpc (restartPc s.wpc) = WPc.loopLock → 1 ≤ s.finished
        rw [hre]
        rintro (hc | hc | hc)
        exacts [c2 (Or.inl (f1.mp hc)), c2 (Or.inr (Or.inl (f2.mp hc))),
          c2 (Or.inr (Or.inr (f3.mp hc)))]
      · show 1 ≤ s.reqCount + 1 →
            1 ≤ s.served ∨ wakeNLpc (restartPc s.wpc) = WPc.wakeNewLoop
        rw [hre]
        intro _
        by_cases hw1 : s.wpc = WPc.waitNewLoop
        · exact Or.inr (by simp [wakeNLpc, hw1])
        · by_cases hw2 : s.wpc = WPc.wakeNewLoop
          · exact Or.inr (by simp [wakeNLpc, hw1, hw2])
          · exact Or.inl (served_pos s b6 b7 b8 b9 c1 c2 hr hw1 hw2)
  | bTpNotReady i wp h hr =>
      have hre : restartPc s.wpc = s.wpc := by simp [restartPc, b9]
      refine ⟨?_, ?_, ?_⟩
      · show s.served = s.finished + csBit (restartPc s.wpc)
        rw [hre]; exact c1
      · show restartPc s.wpc = WPc.emitStep ∨ restartPc s.wpc = WPc.checkAbort2 ∨
            restartPc s.wpc = WPc.loopLock → 1 ≤ s.finished
        rw [hre]; exact c2
      · show 1 ≤ s.reqCount → 1 ≤ s.served ∨ restartPc s.wpc = WPc.wakeNewLoop
        rw [hre]; exact c3
  | bTpRecheckReady wp h hr =>
      obtain ⟨f1, f2, f3⟩ := wakeNL_eq2 s.wpc
      refine ⟨?_, ?_, ?_⟩
      · show s.served = s.finished + csBit (wakeNLpc s.wpc)
        rw [csBit_wakeNL]; exact c1
      · show wakeNLpc s.wpc = WPc.emitStep ∨ wakeNLpc s.wpc = WPc.checkAbort2 ∨
            wakeNLpc s.wpc = WPc.loopLock → 1 ≤ s.finished
        rintro (hc | hc | hc)
        exacts [c2 (Or.inl (f1.mp hc)), c2 (Or.inr (Or.inl (f2.mp hc))),
          c2 (Or.inr (Or.inr (f3.mp hc)))]
      · show 1 ≤ s.reqCount + 1 →
            1 ≤ s.served ∨ wakeNLpc s.wpc = WPc.wakeNewLoop
        intro _
        by_cases hw1 : s.wpc = WPc.waitNewLoop
        · exact Or.inr (by simp [wakeNLpc, hw1])
        · by_cases hw2 : s.wpc = WPc.wakeNewLoop
          · exact Or.inr (by simp [wakeNLpc, hw1, hw2])
          · exact Or.inl (served_pos s b6 b7 b8 b9 c1 c2 hr hw1 hw2)
  | bTpRecheckWait wp h hr => exact ⟨c1, c2, c3⟩
  | bWpLockT h hr => exact ⟨c1, c2, c3⟩
  | bWpLockF h hr => exact ⟨c1, c2, c3⟩
  | bWpTS_T h hr => exact ⟨c1, c2, c3⟩
  | bWpTS_F h hr => exact ⟨c1, c2, c3⟩
  | bWpTF_T h hr => exact ⟨c1, c2, c3⟩
  | bWpTF_F h hr => exact ⟨c1, c2, c3⟩
  | bDCS h => exact absurd h b4.1
  | bDJoin h hw => exact absurd hw b9

/-- Client A is in the end-wait stage of waitPerformance. -/
def aInTF (p : CPc) : Prop := p = CPc.wpWaitTF ∨ p = CPc.wpRecheckTF

/-- Client A is past the point of waitPerformance where the request marker
has been recorded. -/
def aMarked (p : CPc) : Prop :=
  p = CPc.tpWaitReady true ∨ p = CPc.tpRecheck true ∨ p = CPc.wpLock
  ∨ p = CPc.wpWaitTS ∨ p = CPc.wpRecheckTS ∨ p = CPc.wpWaitTF
  ∨ p = CPc.wpRecheckTF

theorem aInTF_wakeTS1 (p : CPc) : aInTF (wakeTS1 p) ↔ aInTF p := by
  cases p <;> simp [wakeTS1, aInTF]

theorem aInTF_wakeTF1 (p : CPc) : aInTF (wakeTF1 p) ↔ aInTF p := by
  cases p <;> simp [wakeTF1, aInTF]

theorem aInTF_wakeReady1 (p : CPc) : aInTF (wakeReady1 p) ↔ aInTF p := by
  cases p <;> simp [wakeReady1, aInTF]

theorem aMarked_wakeTS1 (p : CPc) : aMarked (wakeTS1 p) ↔ aMarked p := by
  cases p <;> simp [wakeTS1, aMarked]

theorem aMarked_wakeTF1 (p : CPc) : aMarked (wakeTF1 p) ↔ aMarked p := by
  cases p <;> simp [wakeTF1, aMarked]

theorem aMarked_wakeReady1 (p : CPc) : aMarked (wakeReady1 p) ↔ aMarked p := by
  cases p <;> simp [wakeReady1, aMarked]

/-- Ghost invariant about client A's waitPerformance call in destructor-free
systems: once A is in the end-wait stage a pass has started; the request
marker never exceeds the counters; in the end-wait stage with the running
flag clear at least one pass has ended after the marked request; and when A
has returned, a pass has completed and one has ended after the request. -/
def InvW (s : St) : Prop :=
  (aInTF s.apc → 1 ≤ s.started)
  ∧ (∀ m : Nat × Nat, s.awpMark = some m → m.1 ≤ s.started ∧ m.2 ≤ s.finished)
  ∧ (aInTF s.apc → s.testRunning = false →
      ∀ m : Nat × Nat, s.awpMark = some m → m.2 + 1 ≤ s.finished)
  ∧ (s.awpDone = true → 1 ≤ s.finished
      ∧ ∀ m : Nat × Nat, s.awpMark = some m → m.2 + 1 ≤ s.finished)
  ∧ (s.awpDone = true → s.awpMark.isSome = true)
  ∧ (aMarked s.apc → s.awpMark.isSome = true)

set_option maxHeartbeats 2000000 in
theorem invW_step {s t : St} (hst : Step s t) (hG : InvG s) (hB : InvB s)
    (ih : InvW s) : InvW t := by
  obtain ⟨g1, g2, g3⟩ := hG
  obtain ⟨b1, b2, b3, b4, b5, b6, b7, b8, b9, b10⟩ := hB
  obtain ⟨i1, i2, i3, i4, i5, i6⟩ := ih
  cases hst with
  | wPrep r h => exact ⟨i1, i2, i3, i4, i5, i6⟩
  | wCs1 h =>
      exact ⟨fun hf => i1 ((aInTF_wakeReady1 _).mp hf), i2,
        fun hf => i3 ((aInTF_wakeReady1 _).mp hf), i4, i5,
        fun hm => i6 ((aMarked_wakeReady1 _).mp hm)⟩
  | wCs2 h => exact ⟨i1, i2, i3, i4, i5, i6⟩
  | wCkA1T h ha => exact absurd ha (by simp [b5])
  | wCkA1F h ha => exact ⟨i1, i2, i3, i4, i5, i6⟩
  | wCs3 h =>
      refine ⟨fun hf => Nat.le_succ_of_le (i1 ((aInTF_wakeTS1 _).mp hf)),
        fun m hm => ⟨Nat.le_succ_of_le (i2 m hm).1, (i2 m hm).2⟩,
        fun _ hrf => absurd hrf (by simp [wakeAllTS]), i4, i5,
        fun hm => i6 ((aMarked_wakeTS1 _).mp hm)⟩
  | wBenchFail h => exact ⟨i1, i2, i3, i4, i5, i6⟩
  | wBenchOk bw pf h => exact ⟨i1, i2, i3, i4, i5, i6⟩
  | wCs4 h =>
      refine ⟨fun hf => i1 ((aInTF_wakeTF1 _).mp hf),
        fun m hm => ⟨(i2 m hm).1, Nat.le_succ_of_le (i2 m hm).2⟩,
        fun _ _ m hm => by
          have := (i2 m hm).2
          show m.2 + 1 ≤ s.finished + 1
          omega,
        fun hd => ⟨Nat.le_succ_of_le (i4 hd).1,
          fun m hm => Nat.le_succ_of_le ((i4 hd).2 m hm)⟩, i5,
        fun hm => i6 ((aMarked_wakeTF1 _).mp hm)⟩
  | wEmit h => exact ⟨i1, i2, i3, i4, i5, i6⟩
  | wCkA2T h ha => exact absurd ha (by simp [b5])
  | wCkA2F h ha => exact ⟨i1, i2, i3, i4, i5, i6⟩
  | wLoopLock h => exact ⟨i1, i2, i3, i4, i5, i6⟩
  | wFinal h => exact absurd h b7
  | wClean r h => exact absurd h b8
  | aDisp c cs h hs =>
      exact ⟨fun hf => absurd hf (by cases c <;> simp [startPc, aInTF]),
        i2, fun hf => absurd hf (by cases c <;> simp [startPc, aInTF]),
        i4, i5,
        fun hm => absurd hm (by cases c <;> simp [startPc, aMarked])⟩
  | aTpReady i wp h hr =>
      refine ⟨?_, ?_, ?_, ?_, ?_, ?_⟩
      · show aInTF (if wp then CPc.wpLock else CPc.idle) → 1 ≤ s.started
        cases wp <;> simp [aInTF]
      · show ∀ m : Nat × Nat,
            markUpd wp s.awpMark s.started s.finished = some m →
            m.1 ≤ s.started ∧ m.2 ≤ s.finished
        intro m hm
        unfold markUpd at hm
        cases wp with
        | false => simp at hm; exact i2 m hm
        | true =>
            simp only [if_pos] at hm
            cases hmk : s.awpMark with
            | none => rw [hmk] at hm; simp at hm; cases hm; exact ⟨le_rfl, le_rfl⟩
            | some m0 => rw [hmk] at hm; simp at hm; cases hm; exact i2 _ hmk
      · show aInTF (if wp then CPc.wpLock else CPc.idle) →
            s.testRunning = false → ∀ m : Nat × Nat,
            markUpd wp s.awpMark s.started s.finished = some m →
            m.2 + 1 ≤ s.finished
        cases wp <;> simp [aInTF]
      · show s.awpDone = true → 1 ≤ s.finished ∧ ∀ m : Nat × Nat,
            markUpd wp s.awpMark s.started s.finished = some m →
            m.2 + 1 ≤ s.finished
        intro hd
        refine ⟨(i4 hd).1, ?_⟩
        intro m hm
        unfold markUpd at hm
        cases wp with
        | false => simp at hm; exact (i4 hd).2 m hm
        | true =>
            have hsome := i5 hd
            cases hmk : s.awpMark with
            | none => rw [hmk] at hsome; simp at hsome
            | some m0 => rw [hmk] at hm; simp at hm; cases hm; exact (i4 hd).2 _ hmk
      · show s.awpDone = true →
            (markUpd wp s.awpMark s.started s.finished).isSome = true
        intro hd
        have hsome := i5 hd
        unfold markUpd
        cases wp with
        | false => simpa using hsome
        | true => cases s.awpMark <;> simp
      · show aMarked (if wp then CPc.wpLock else CPc.idle) →
            (markUpd wp s.awpMark s.started s.finished).isSome = true
        cases wp with
        | false => simp [aMarked]
        | true => intro _; unfold markUpd; cases s.awpMark <;> simp
  | aTpNotReady i wp h hr =>
      refine ⟨?_, ?_, ?_, ?_, ?_, ?_⟩
      · show aInTF (CPc.tpWaitReady wp) → 1 ≤ s.started
        simp [aInTF]
      · show ∀ m : Nat × Nat,
            markUpd wp s.awpMark s.started s.finished = some m →
            m.1 ≤ s.started ∧ m.2 ≤ s.finished
        intro m hm
        unfold markUpd at hm
        cases wp with
        | false => simp at hm; exact i2 m hm
        | true =>
            cases hmk : s.awpMark with
            | none => rw [hmk] at hm; simp at hm; cases hm; exact ⟨le_rfl, le_rfl⟩
            | some m0 => rw [hmk] at hm; simp at hm; cases hm; exact i2 _ hmk
      · show aInTF (CPc.tpWaitReady wp) → s.testRunning = false →
            ∀ m : Nat × Nat,
            markUpd wp s.awpMark s.started s.finished = some m →
            m.2 + 1 ≤ s.finished
        simp [aInTF]
      · show s.awpDone = true → 1 ≤ s.finished ∧ ∀ m : Nat × Nat,
            markUpd wp s.awpMark s.started s.finished = some m →
            m.2 + 1 ≤ s.finished
        intro hd
        refine ⟨(i4 hd).1, ?_⟩
        intro m hm
        unfold markUpd at hm
        cases wp with
        | false => simp at hm; exact (i4 hd).2 m hm
        | true =>
            have hsome := i5 hd
            cases hmk : s.awpMark with
            | none => rw [hmk] at hsome; simp at hsome
            | some m0 => rw [hmk] at hm; simp at hm; cases hm; exact (i4 hd).2 _ hmk
      · show s.awpDone = true →
            (markUpd wp s.awpMark s.started s.finished).isSome = true
        intro hd
        have hsome := i5 hd
        unfold markUpd
        cases wp with
        | false => simpa using hsome
        | true => cases s.awpMark <;> simp
      · show aMarked (CPc.tpWaitReady wp) →
            (markUpd wp s.awpMark s.started s.finished).isSome = true
        cases wp with
        | false => simp [aMarked]
        | true => intro _; unfold markUpd; cases s.awpMark <;> simp
  | aTpRecheckReady wp h hr =>
      refine ⟨?_, i2, ?_, i4, i5, ?_⟩
      · show aInTF (if wp then CPc.wpLock else CPc.idle) → 1 ≤ s.started
        cases wp <;> simp [aInTF]
      · show aInTF (if wp then CPc.wpLock else CPc.idle) →
            s.testRunning = false → ∀ m : Nat × Nat,
            s.awpMark = some m → m.2 + 1 ≤ s.finished
        cases wp <;> simp [aInTF]
      · show aMarked (if wp then CPc.wpLock else CPc.idle) →
            s.awpMark.isSome = true
        cases wp with
        | false => simp [aMarked]
        | true => intro _; exact i6 (Or.inr (Or.inl h))
  | aTpRecheckWait wp h hr =>
      refine ⟨?_, i2, ?_, i4, i5, ?_⟩
      · show aInTF (CPc.tpWaitReady wp) → 1 ≤ s.started
        simp [aInTF]
      · show aInTF (CPc.tpWaitReady wp) → s.testRunning = false →
            ∀ m : Nat × Nat, s.awpMark = some m → m.2 + 1 ≤ s.finished
        simp [aInTF]
      · show aMarked (CPc.tpWaitReady wp) → s.awpMark.isSome = true
        cases wp with
        | false => simp [aMarked]
        | true => intro _; exact i6 (Or.inr (Or.inl h))
  | aWpLockT h hr =>
      refine ⟨?_, i2, ?_, i4, i5, ?_⟩
      · intro _
        show 1 ≤ s.started
        rcases g2 hr with hw | hw <;> simp [passBit, hw] at g1 <;> omega
      · exact fun _ hrf => absurd hrf (by simp [hr])
      · exact fun _ => i6 (Or.inr (Or.inr (Or.inl h)))
  | aWpLockF h hr =>
      refine ⟨?_, i2, ?_, i4, i5, ?_⟩
      · show aInTF CPc.wpWaitTS → 1 ≤ s.started
        simp [aInTF]
      · show aInTF CPc.wpWaitTS → s.testRunning = false → ∀ m : Nat × Nat,
            s.awpMark = some m → m.2 + 1 ≤ s.finished
        simp [aInTF]
      · exact fun _ => i6 (Or.inr (Or.inr (Or.inl h)))
  | aWpTS_T h hr =>
      refine ⟨?_, i2, ?_, i4, i5, ?_⟩
      · intro _
        show 1 ≤ s.started
        rcases g2 hr with hw | hw <;> simp [passBit, hw] at g1 <;> omega
      · exact fun _ hrf => absurd hrf (by simp [hr])
      · exact fun _ => i6 (Or.inr (Or.inr (Or.inr (Or.inr (Or.inl h)))))
  | aWpTS_F h hr =>
      refine ⟨?_, i2, ?_, i4, i5, ?_⟩
      · show aInTF CPc.wpWaitTS → 1 ≤ s.started
        simp [aInTF]
      · show aInTF CPc.wpWaitTS → s.testRunning = false → ∀ m : Nat × Nat,
            s.awpMark = some m → m.2 + 1 ≤ s.finished
        simp [aInTF]
      · exact fun _ => i6 (Or.inr (Or.inr (Or.inr (Or.inr (Or.inl h)))))
  | aWpTF_T h hr =>
      refine ⟨fun _ => i1 (Or.inr h), i2, ?_, i4, i5, ?_⟩
      · exact fun _ hrf => absurd hrf (by simp [hr])
      · exact fun _ => i6 (Or.inr (Or.inr (Or.inr (Or.inr (Or.inr (Or.inr h))))))
  | aWpTF_F h hr =>
      refine ⟨?_, i2, ?_, ?_, ?_, ?_⟩
      · show aInTF CPc.idle → 1 ≤ s.started
        simp [aInTF]
      · show aInTF CPc.idle → s.testRunning = false → ∀ m : Nat × Nat,
            s.awpMark = some m → m.2 + 1 ≤ s.finished
        simp [aInTF]
      · intro _
        have hst1 : 1 ≤ s.started := i1 (Or.inr h)
        have hnb : ¬(s.wpc = WPc.bench ∨ s.wpc = WPc.lock3) := by
          intro hw
          rw [b10 hw] at hr
          exact Bool.noConfusion hr
        have hp : passBit s.wpc = 0 := by unfold passBit; rw [if_neg hnb]
        rw [hp] at g1
        exact ⟨show (1:Nat) ≤ s.finished by omega, fun m hm => i3 (Or.inr h) hr m hm⟩
      · exact fun _ => i6 (Or.inr (Or.inr (Or.inr (Or.inr (Or.inr (Or.inr h))))))
      · show aMarked CPc.idle → s.awpMark.isSome = true
        simp [aMarked]
  | aDCS h => exact absurd h b3.1
  | aDJoin h hw => exact absurd hw b9
  | bDisp c cs h hs => exact ⟨i1, i2, i3, i4, i5, i6⟩
  | bTpReady i wp h hr => exact ⟨i1, i2, i3, i4, i5, i6⟩
  | bTpNotReady i wp h hr => exact ⟨i1, i2, i3, i4, i5, i6⟩
  | bTpRecheckReady wp h hr => exact ⟨i1, i2, i3, i4, i5, i6⟩
  | bTpRecheckWait wp h hr => exact ⟨i1, i2, i3, i4, i5, i6⟩
  | bWpLockT h hr => exact ⟨i1, i2, i3, i4, i5, i6⟩
  | bWpLockF h hr => exact ⟨i1, i2, i3, i4, i5, i6⟩
  | bWpTS_T h hr => exact ⟨i1, i2, i3, i4, i5, i6⟩
  | bWpTS_F h hr => exact ⟨i1, i2, i3, i4, i5, i6⟩
  | bWpTF_T h hr => exact ⟨i1, i2, i3, i4, i5, i6⟩
  | bWpTF_F h hr => exact ⟨i1, i2, i3, i4, i5, i6⟩
  | bDCS h => exact absurd h b4.1
  | bDJoin h hw => exact absurd hw b9

theorem invB_reach {aS bS : List Call} {s : St} (ha : NoDestruct aS)
    (hb : NoDestruct bS) (hr : Reach (init aS bS) s) : InvB s := by
  induction hr with
  | refl => simp_all [init, InvB, dfClientPc, NoDestruct]
  | tail _ hstep ih => exact invB_step hstep ih

theorem invDF_reach {aS bS : List Call} {s : St} (ha : NoDestruct aS)
    (hb : NoDestruct bS) (hr : Reach (init aS bS) s) :
    InvB s ∧ InvC s ∧ InvW s := by
  induction hr with
  | refl =>
      refine ⟨⟨ha, hb, by simp [init, dfClientPc], by simp [init, dfClientPc], rfl,
        by simp [init], by simp [init], by simp [init], by simp [init],
        by simp [init]⟩, ⟨by simp [init, csBit], by simp [init],
        by simp [init]⟩, ?_⟩
      refine ⟨by simp [init, aInTF], by simp [init], by simp [init, aInTF],
        by simp [init], by simp [init], by simp [init, aMarked]⟩
  | tail hsteps hstep ih =>
      exact ⟨invB_step hstep ih.1, invC_step hstep ih.1 ih.2.1,
        invW_step hstep (invG_reach hsteps) ih.1 ih.2.2⟩

/-- Claim C1, counterexample: waitPerformance can return although the pass
it requested never began.  In the reachable execution of scenario A, client
A's waitPerformance recorded its request while pass number 1 was mid-flight
(awpMark = (1 started, 0 finished)); A returned (awpDone), yet started is
still 1: no not-running-to-running transition happened after the request.
A proceeded past its begin-wait on the testRunning flag set before its
request, observed only that stale pass's end, and the requested pass was
never run (the system even deadlocks: stepEnabled is false, so by
step_enabled no step is possible).  The claim that the caller always blocks
through a complete not-running, running, not-running transition and never
returns early on a stale flag state is therefore false of the code. -/
theorem waitPerformance_stale_return :
    Reach initA finA ∧ finA.awpDone = true ∧ finA.awpMark = some (1, 0)
    ∧ finA.started = 1 ∧ finA.emitted = [] ∧ stepEnabled finA = false :=
  ⟨reach_finA, rfl, rfl, rfl, rfl, by decide⟩

/-- Claim C2, counterexample: in scenario A the waitPerformance caller
completes by observing a pass that was already mid-flight at the time of
its request: at the request, one pass had started and none had finished
(awpMark = (1, 0)); at return (awpDone) exactly that pass has finished
(finished = 1) and no further pass ever started (started = 1).  The cycle
it observed was not that of the next pass scheduled after its request. -/
theorem waitPerformance_midflight_completion :
    Reach initA finA ∧ finA.awpDone = true ∧ finA.awpMark = some (1, 0)
    ∧ finA.finished = 1 ∧ finA.started = 1 :=
  ⟨reach_finA, rfl, rfl, rfl, rfl⟩

/-- Claim C1, amended: in destructor-free executions, whenever client A has
returned from waitPerformance at least one benchmark pass has both begun and
ended by that time; however (per the counterexample) the pass whose end
releases the caller may have begun before its request, the begin-wait may be
skipped on a flag set before the request, and the pass the call itself
requested may never run. -/
theorem waitPerformance_returns_after_pass (aS bS : List Call) (s : St)
    (ha : NoDestruct aS) (hb : NoDestruct bS) (hr : Reach (init aS bS) s)
    (hd : s.awpDone = true) : 1 ≤ s.finished :=
  (((invDF_reach ha hb hr).2.2).2.2.2.1 hd).1

theorem waitPerformance_returns_after_pass_witness :
    NoDestruct [Call.testPerf 5, Call.waitPerf] ∧ NoDestruct ([] : List Call)
    ∧ finA.awpDone = true ∧ 1 ≤ finA.finished :=
  ⟨by unfold NoDestruct; decide, by unfold NoDestruct; decide, rfl,
    waitPerformance_returns_after_pass _ _ finA
      (by unfold NoDestruct; decide) (by unfold NoDestruct; decide)
      reach_finA rfl⟩

/-- Claim C2, amended: in destructor-free executions a waitPerformance
caller returns only after at least one pass end occurred strictly after its
request was recorded (the finished count strictly exceeds its value at the
request); the begin-then-end cycle it observes, however, need not be of the
next pass scheduled after the request: the begin may belong to a pass that
was already mid-flight when the request was made. -/
theorem waitPerformance_end_after_request (aS bS : List Call) (s : St)
    (m : Nat × Nat) (ha : NoDestruct aS) (hb : NoDestruct bS)
    (hr : Reach (init aS bS) s) (hd : s.awpDone = true)
    (hm : s.awpMark = some m) : m.2 + 1 ≤ s.finished :=
  (((invDF_reach ha hb hr).2.2).2.2.2.1 hd).2 m hm

theorem waitPerformance_end_after_request_witness :
    finA.awpMark = some (1, 0) ∧ finA.awpDone = true
    ∧ (1, 0).2 + 1 ≤ finA.finished :=
  ⟨rfl, rfl,
    waitPerformance_end_after_request _ _ finA (1, 0)
      (by unfold NoDestruct; decide) (by unfold NoDestruct; decide)
      reach_finA rfl rfl⟩

/-- Claim C3, counterexample: two back-to-back testPerformance(5) calls with
no intervening pass completion (req2AtFin = some 0: the second request fired
while finished was 0) do not lead to a second pass.  In the reachable final
state of scenario B both calls have returned, exactly one pass has run
(started = finished = 1), its notification reported 5 (emitted = [5]), and
the system is deadlocked (stepEnabled false, so by step_enabled no thread
can ever step again): the second pass claimed by the sentence never occurs,
because the second newLoop.wakeOne found the worker not blocked in its wait
and was lost. -/
theorem second_request_lost :
    Reach initB finB ∧ finB.req2AtFin = some 0 ∧ finB.apc = CPc.idle
    ∧ finB.ascript = [] ∧ finB.started = 1 ∧ finB.finished = 1
    ∧ finB.emitted = [5] ∧ stepEnabled finB = false :=
  ⟨reach_finB, rfl, rfl, rfl, rfl, rfl, rfl, by decide⟩

/-- Number of testPerformance calls a client pc is currently inside. -/
def tpPend : CPc → Nat
  | CPc.tpCS _ _ => 1
  | CPc.tpWaitReady _ => 1
  | CPc.tpRecheck _ => 1
  | _ => 0

/-- Shape of client A's pc in the scenario-B system. -/
abbrev aShapeB (p : CPc) : Prop :=
  p = CPc.idle ∨ p = CPc.tpCS 5 false ∨ p = CPc.tpWaitReady false
  ∨ p = CPc.tpRecheck false

theorem aShapeB_wakeReady1 (p : CPc) (h : aShapeB p) :
    aShapeB (wakeReady1 p) := by
  rcases h with h | h | h | h <;> subst h <;> simp [wakeReady1, aShapeB]

theorem aShapeB_wakeTS1 (p : CPc) (h : aShapeB p) : aShapeB (wakeTS1 p) := by
  rcases h with h | h | h | h <;> subst h <;> simp [wakeTS1, aShapeB]

theorem aShapeB_wakeTF1 (p : CPc) (h : aShapeB p) : aShapeB (wakeTF1 p) := by
  rcases h with h | h | h | h <;> subst h <;> simp [wakeTF1, aShapeB]

theorem tpPend_wakeReady1 (p : CPc) : tpPend (wakeReady1 p) = tpPend p := by
  cases p <;> rfl

theorem tpPend_wakeTS1 (p : CPc) : tpPend (wakeTS1 p) = tpPend p := by
  cases p <;> rfl

theorem tpPend_wakeTF1 (p : CPc) : tpPend (wakeTF1 p) = tpPend p := by
  cases p <;> rfl

/-- Invariant of the scenario-B system (client A runs two testPerformance(5)
calls, client B nothing): request accounting against the script, the shapes
of the reachable pcs, emitted values, and the coalescing fact: if the second
wakeup was fired before any pass had finished (req2AtFin = some 0) then at
most one pass ever starts, and none has started while the worker is between
its wait exit and the pass start. -/
def InvScenB (s : St) : Prop :=
  s.reqCount + tpPend s.apc + s.ascript.length = 2
  ∧ s.bpc = CPc.idle ∧ s.bscript = []
  ∧ aShapeB s.apc
  ∧ (∀ c ∈ s.ascript, c = Call.testPerf 5)
  ∧ (s.index = -1 ∨ s.index = 5)
  ∧ (∀ x ∈ s.emitted, x = 5)
  ∧ (s.req2AtFin.isSome = true → 2 ≤ s.reqCount)
  ∧ (s.req2AtFin = some 0 → s.started ≤ 1
      ∧ ((s.wpc = WPc.wakeNewLoop ∨ s.wpc = WPc.checkAbort1
          ∨ s.wpc = WPc.lock2) → s.started = 0))

set_option maxHeartbeats 2000000 in
theorem invScenB_step {s t : St} (hst : Step s t) (hG : InvG s) (hB : InvB s)
    (ih : InvScenB s) : InvScenB t := by
  obtain ⟨g1, g2, g3⟩ := hG
  obtain ⟨b1, b2, b3, b4, b5, b6, b7, b8, b9, b10⟩ := hB
  obtain ⟨e1, e2, e3, e4, e5, e6, e7, e8, e9⟩ := ih
  cases hst with
  | wPrep r h =>
      refine ⟨e1, e2, e3, e4, e5, e6, e7, e8, ?_⟩
      intro hq
      exact ⟨(e9 hq).1, by simp⟩
  | wCs1 h =>
      refine ⟨?_, ?_, e3, aShapeB_wakeReady1 _ e4, e5, e6, e7, e8, ?_⟩
      · show s.reqCount + tpPend (wakeReady1 s.apc) + s.ascript.length = 2
        rw [tpPend_wakeReady1]; exact e1
      · simp [wakeAllReady, e2, wakeReady1]
      · intro hq
        refine ⟨(e9 hq).1, ?_⟩
        show WPc.waitNewLoop = WPc.wakeNewLoop ∨ WPc.waitNewLoop = WPc.checkAbort1
          ∨ WPc.waitNewLoop = WPc.lock2 → s.started = 0
        simp
  | wCs2 h =>
      refine ⟨e1, e2, e3, e4, e5, e6, e7, e8, ?_⟩
      intro hq
      exact ⟨(e9 hq).1, fun _ => (e9 hq).2 (Or.inl h)⟩
  | wCkA1T h ha => exact absurd ha (by simp [b5])
  | wCkA1F h ha =>
      refine ⟨e1, e2, e3, e4, e5, e6, e7, e8, ?_⟩
      intro hq
      exact ⟨(e9 hq).1, fun _ => (e9 hq).2 (Or.inr (Or.inl h))⟩
  | wCs3 h =>
      refine ⟨?_, ?_, e3, aShapeB_wakeTS1 _ e4, e5, e6, e7, e8, ?_⟩
      · show s.reqCount + tpPend (wakeTS1 s.apc) + s.ascript.length = 2
        rw [tpPend_wakeTS1]; exact e1
      · simp [wakeAllTS, e2, wakeTS1]
      · intro hq
        refine ⟨?_, ?_⟩
        · have h0 := (e9 hq).2 (Or.inr (Or.inr h))
          show s.started + 1 ≤ 1
          omega
        · show WPc.bench = WPc.wakeNewLoop ∨ WPc.bench = WPc.checkAbort1
            ∨ WPc.bench = WPc.lock2 → s.started + 1 = 0
          simp
  | wBenchFail h =>
      refine ⟨e1, e2, e3, e4, e5, e6, e7, e8, ?_⟩
      intro hq
      exact ⟨(e9 hq).1, by simp⟩
  | wBenchOk bw pf h =>
      refine ⟨e1, e2, e3, e4, e5, e6, e7, e8, ?_⟩
      intro hq
      exact ⟨(e9 hq).1, by simp⟩
  | wCs4 h =>
      refine ⟨?_, ?_, e3, aShapeB_wakeTF1 _ e4, e5, e6, e7, e8, ?_⟩
      · show s.reqCount + tpPend (wakeTF1 s.apc) + s.ascript.length = 2
        rw [tpPend_wakeTF1]; exact e1
      · simp [wakeAllTF, e2, wakeTF1]
      · intro hq
        refine ⟨(e9 hq).1, ?_⟩
        show WPc.emitStep = WPc.wakeNewLoop ∨ WPc.emitStep = WPc.checkAbort1
          ∨ WPc.emitStep = WPc.lock2 → s.started = 0
        simp
  | wEmit h =>
      refine ⟨e1, e2, e3, e4, e5, e6, ?_, e8, ?_⟩
      · show ∀ x ∈ (if s.index = -1 then s.emitted else s.emitted ++ [s.index]),
            x = 5
        rcases e6 with hi | hi
        · simp [hi]
          exact e7
        · simp [hi]
          intro x hx
          rcases hx with hx | hx
          · exact e7 x hx
          · exact hx
      · intro hq
        exact ⟨(e9 hq).1, by simp⟩
  | wCkA2T h ha => exact absurd ha (by simp [b5])
  | wCkA2F h ha =>
      refine ⟨e1, e2, e3, e4, e5, e6, e7, e8, ?_⟩
      intro hq
      exact ⟨(e9 hq).1, by simp⟩
  | wLoopLock h =>
      refine ⟨e1, e2, e3, e4, e5, e6, e7, e8, ?_⟩
      intro hq
      exact ⟨(e9 hq).1, by simp⟩
  | wFinal h => exact absurd h b7
  | wClean r h => exact absurd h b8
  | aDisp c cs h hs =>
      have hc : c = Call.testPerf 5 := e5 c (by rw [hs]; exact List.mem_cons_self c cs)
      subst hc
      refine ⟨?_, e2, e3, Or.inr (Or.inl rfl), ?_, e6, e7, e8, ?_⟩
      · show s.reqCount + tpPend (startPc (Call.testPerf 5)) + cs.length = 2
        rw [h, hs] at e1
        simp [tpPend, startPc] at e1 ⊢
        omega
      · intro x hx
        exact e5 x (by rw [hs]; exact List.mem_cons_of_mem _ hx)
      · intro hq
        exact ⟨(e9 hq).1, (e9 hq).2⟩
  | aTpReady i wp h hr =>
      have hre : restartPc s.wpc = s.wpc := by simp [restartPc, b9]
      have hiw : i = 5 ∧ wp = false := by
        rcases e4 with h4 | h4 | h4 | h4 <;> rw [h] at h4 <;> simp_all
      obtain ⟨hi5, hwf⟩ := hiw
      subst hi5; subst hwf
      refine ⟨?_, e2, e3, Or.inl rfl, e5, Or.inr rfl, e7, ?_, ?_⟩
      · show s.reqCount + 1 + tpPend CPc.idle + s.ascript.length = 2
        rw [h] at e1
        simp [tpPend] at e1 ⊢
        omega
      · show (req2Upd s.reqCount s.finished s.req2AtFin).isSome = true →
            2 ≤ s.reqCount + 1
        unfold req2Upd
        split_ifs with hrc
        · omega
        · intro hq; have := e8 hq; omega
      · show req2Upd s.reqCount s.finished s.req2AtFin = some 0 →
            s.started ≤ 1
            ∧ ((wakeNLpc (restartPc s.wpc) = WPc.wakeNewLoop
                ∨ wakeNLpc (restartPc s.wpc) = WPc.checkAbort1
                ∨ wakeNLpc (restartPc s.wpc) = WPc.lock2) → s.started = 0)
        rw [hre]
        unfold req2Upd
        split_ifs with hrc
        · intro hq
          have hfin : s.finished = 0 := by simpa using hq
          cases hww : s.wpc <;>
            simp_all [wakeNLpc, passBit]
        · intro hq
          have h2 : (2:Nat) ≤ s.reqCount := e8 (by rw [hq]; rfl)
          rw [h] at e1
          simp [tpPend] at e1
          omega
  | aTpNotReady i wp h hr =>
      have hre : restartPc s.wpc = s.wpc := by simp [restartPc, b9]
      have hiw : i = 5 ∧ wp = false := by
        rcases e4 with h4 | h4 | h4 | h4 <;> rw [h] at h4 <;> simp_all
      obtain ⟨hi5, hwf⟩ := hiw
      subst hi5; subst hwf
      refine ⟨?_, e2, e3, Or.inr (Or.inr (Or.inl rfl)), e5, Or.inr rfl, e7, e8, ?_⟩
      · show s.reqCount + tpPend (CPc.tpWaitReady false) + s.ascript.length = 2
        rw [h] at e1
        simp [tpPend] at e1 ⊢
        omega
      · show s.req2AtFin = some 0 → s.started ≤ 1
            ∧ ((restartPc s.wpc = WPc.wakeNewLoop
                ∨ restartPc s.wpc = WPc.checkAbort1
                ∨ restartPc s.wpc = WPc.lock2) → s.started = 0)
        rw [hre]
        exact e9
  | aTpRecheckReady wp h hr =>
      have hwf : wp = false := by
        rcases e4 with h4 | h4 | h4 | h4 <;> rw [h] at h4 <;> simp_all
      subst hwf
      refine ⟨?_, e2, e3, Or.inl rfl, e5, e6, e7, ?_, ?_⟩
      · show s.reqCount + 1 + tpPend CPc.idle + s.ascript.length = 2
        rw [h] at e1
        simp [tpPend] at e1 ⊢
        omega
      · show (req2Upd s.reqCount s.finished s.req2AtFin).isSome = true →
            2 ≤ s.reqCount + 1
        unfold req2Upd
        split_ifs with hrc
        · omega
        · intro hq; have := e8 hq; omega
      · show req2Upd s.reqCount s.finished s.req2AtFin = some 0 →
            s.started ≤ 1
            ∧ ((wakeNLpc s.wpc = WPc.wakeNewLoop
                ∨ wakeNLpc s.wpc = WPc.checkAbort1
                ∨ wakeNLpc s.wpc = WPc.lock2) → s.started = 0)
        unfold req2Upd
        split_ifs with hrc
        · intro hq
          have hfin : s.finished = 0 := by simpa using hq
          cases hww : s.wpc <;>
            simp_all [wakeNLpc, passBit]
        · intro hq
          have h2 : (2:Nat) ≤ s.reqCount := e8 (by rw [hq]; rfl)
          rw [h] at e1
          simp [tpPend] at e1
          omega
  | aTpRecheckWait wp h hr =>
      have hwf : wp = false := by
        rcases e4 with h4 | h4 | h4 | h4 <;> rw [h] at h4 <;> simp_all
      subst hwf
      refine ⟨?_, e2, e3, Or.inr (Or.inr (Or.inl rfl)), e5, e6, e7, e8, e9⟩
      show s.reqCount + tpPend (CPc.tpWaitReady false) + s.ascript.length = 2
      rw [h] at e1
      simp [tpPend] at e1 ⊢
      omega
  | aWpLockT h hr =>
      rcases e4 with h4 | h4 | h4 | h4 <;> rw [h] at h4 <;> simp_all
  | aWpLockF h hr =>
      rcases e4 with h4 | h4 | h4 | h4 <;> rw [h] at h4 <;> simp_all
  | aWpTS_T h hr =>
      rcases e4 with h4 | h4 | h4 | h4 <;> rw [h] at h4 <;> simp_all
  | aWpTS_F h hr =>
      rcases e4 with h4 | h4 | h4 | h4 <;> rw [h] at h4 <;> simp_all
  | aWpTF_T h hr =>
      rcases e4 with h4 | h4 | h4 | h4 <;> rw [h] at h4 <;> simp_all
  | aWpTF_F h hr =>
      rcases e4 with h4 | h4 | h4 | h4 <;> rw [h] at h4 <;> simp_all
  | aDCS h =>
      rcases e4 with h4 | h4 | h4 | h4 <;> rw [h] at h4 <;> simp_all
  | aDJoin h hw =>
      rcases e4 with h4 | h4 | h4 | h4 <;> rw [h] at h4 <;> simp_all
  | bDisp c cs h hs => rw [e3] at hs; exact absurd hs (by simp)
  | bTpReady i wp h hr => rw [e2] at h; exact absurd h (by simp)
  | bTpNotReady i wp h hr => rw [e2] at h; exact absurd h (by simp)
  | bTpRecheckReady wp h hr => rw [e2] at h; exact absurd h (by simp)
  | bTpRecheckWait wp h hr => rw [e2] at h; exact absurd h (by simp)
  | bWpLockT h hr => rw [e2] at h; exact absurd h (by simp)
  | bWpLockF h hr => rw [e2] at h; exact absurd h (by simp)
  | bWpTS_T h hr => rw [e2] at h; exact absurd h (by simp)
  | bWpTS_F h hr => rw [e2] at h; exact absurd h (by simp)
  | bWpTF_T h hr => rw [e2] at h; exact absurd h (by simp)
  | bWpTF_F h hr => rw [e2] at h; exact absurd h (by simp)
  | bDCS h => rw [e2] at h; exact absurd h (by simp)
  | bDJoin h hw => rw [e2] at h; exact absurd h (by simp)

theorem invScenB_reach {s : St} (hr : Reach initB s) : InvScenB s := by
  induction hr with
  | refl =>
      refine ⟨by simp [initB, init, tpPend], rfl, rfl, Or.inl rfl, ?_,
        Or.inl rfl, by simp [initB, init], by simp [initB, init],
        by simp [initB, init]⟩
      intro c hc
      simp [initB, init] at hc
      exact hc
  | tail hsteps hstep ih =>
      have hB : InvB _ := (@invDF_reach [Call.testPerf 5, Call.testPerf 5] [] _
        (by unfold NoDestruct; decide) (by unfold NoDestruct; decide)
        hsteps).1
      exact invScenB_step hstep (invG_reach hsteps) hB ih

/-- Claim C3, amended: when requestBenchmark(5) is called twice back-to-back
with no intervening pass completion (the second wakeup fires while no pass
has finished, req2AtFin = some 0), the pending index is overwritten rather
than queued and the second wakeup is lost, so the worker runs at most one
pass in the whole execution, and every completion notification it ever emits
reports index 5.  The second pass asserted by the claim does not occur. -/
theorem coalesced_request_single_pass (s : St) (hr : Reach initB s)
    (h2 : s.req2AtFin = some 0) :
    s.started ≤ 1 ∧ ∀ x ∈ s.emitted, x = 5 := by
  obtain ⟨e1, e2, e3, e4, e5, e6, e7, e8, e9⟩ := invScenB_reach hr
  exact ⟨(e9 h2).1, e7⟩

theorem coalesced_request_single_pass_witness :
    finB.req2AtFin = some 0 ∧ finB.started ≤ 1 ∧ ∀ x ∈ finB.emitted, x = 5 :=
  ⟨rfl, coalesced_request_single_pass finB reach_finB rfl⟩

/-- Claim C4, counterexample: teardown does not always terminate the
background task.  In scenario C the destructor's critical section runs while
the worker is still inside prepareDevice; its newLoop.wakeOne is lost.  The
reachable final state has the destructor blocked in wait() (bpc = dJoin),
abort set, the worker blocked in newLoop.wait, cleanup never run, and no
step is enabled (by step_enabled the system is in total deadlock): the
destructor never returns and the task never terminates. -/
theorem teardown_deadlock_before_first_wait :
    Reach initC finC ∧ finC.bpc = CPc.dJoin ∧ finC.abort = true
    ∧ finC.wpc = WPc.waitNewLoop ∧ finC.cleaned = false
    ∧ stepEnabled finC = false :=
  ⟨reach_finC, rfl, rfl, rfl, rfl, by decide⟩

/-- Reachable state of the scenario used for the amended claim C4: the
worker has entered its request wait and the destructor is about to run. -/
def midE : St :=
  { wpc := WPc.waitNewLoop, ascript := [Call.testPerf 5], bpc := CPc.dCS,
    bscript := [], deviceReady := true }

theorem reach_midE : Reach (init [Call.testPerf 5] [Call.destruct]) midE := by
  refine Relation.ReflTransGen.head (Step.wPrep _ true rfl) ?_
  refine Relation.ReflTransGen.head (Step.wCs1 _ rfl) ?_
  exact Relation.ReflTransGen.single (Step.bDisp _ Call.destruct _ rfl rfl)

/-- Claim C4, amended: teardown terminates the background task and the
destructor returns only after any in-flight benchmark operation has
returned and the cleanup step has run, provided the destructor's critical
section executes while the worker is blocked in its request wait or is
executing a benchmark pass (the claim's two cases); if it executes before
the worker first reaches the wait, or in the window at the loop bottom
before the worker re-enters the wait, the wakeup is lost and both the
worker and the destructor block for ever (see the counterexample). -/
theorem teardown_terminates_from_wait_or_bench (s : St)
    (hr : Reach (init [Call.testPerf 5] [Call.destruct]) s)
    (hb : s.bpc = CPc.dCS)
    (hw : s.wpc = WPc.waitNewLoop ∨ s.wpc = WPc.bench) :
    ∃ t, Relation.ReflTransGen Step s t ∧ t.bpc = CPc.dDone
      ∧ t.cleaned = true ∧ t.wpc = WPc.done ∧ t.started = t.finished := by
  obtain ⟨g1, g2, g3⟩ := invG_reach hr
  rcases hw with hw | hw
  · have h1 : (destructCS s).wpc = WPc.wakeNewLoop := by
      show wakeNLpc s.wpc = WPc.wakeNewLoop
      rw [hw]
      rfl
    refine ⟨_, Relation.ReflTransGen.head (Step.bDCS s hb)
      (Relation.ReflTransGen.head (Step.wCs2 _ h1)
      (Relation.ReflTransGen.head (Step.wCkA1T _ rfl rfl)
      (Relation.ReflTransGen.head (Step.wFinal _ rfl)
      (Relation.ReflTransGen.head (Step.wClean _ true rfl)
      (Relation.ReflTransGen.single (Step.bDJoin _ rfl rfl)))))),
      rfl, rfl, rfl, ?_⟩
    show s.started = s.finished
    rw [g1]
    simp [passBit, hw]
  · have h1 : (destructCS s).wpc = WPc.bench := by
      show wakeNLpc s.wpc = WPc.bench
      rw [hw]
      rfl
    refine ⟨_, Relation.ReflTransGen.head (Step.bDCS s hb)
      (Relation.ReflTransGen.head (Step.wBenchFail _ h1)
      (Relation.ReflTransGen.head (Step.wCs4 _ rfl)
      (Relation.ReflTransGen.head (Step.wEmit _ rfl)
      (Relation.ReflTransGen.head (Step.wCkA2T _ rfl rfl)
      (Relation.ReflTransGen.head (Step.wFinal _ rfl)
      (Relation.ReflTransGen.head (Step.wClean _ true rfl)
      (Relation.ReflTransGen.single (Step.bDJoin _ rfl rfl)))))))),
      rfl, rfl, rfl, ?_⟩
    show s.started = s.finished + 1
    rw [g1]
    simp [passBit, hw]

theorem teardown_terminates_witness :
    midE.bpc = CPc.dCS ∧ (midE.wpc = WPc.waitNewLoop ∨ midE.wpc = WPc.bench)
    ∧ (∃ t, Relation.ReflTransGen Step midE t ∧ t.bpc = CPc.dDone
        ∧ t.cleaned = true ∧ t.wpc = WPc.done ∧ t.started = t.finished) :=
  ⟨rfl, Or.inl rfl,
    teardown_terminates_from_wait_or_bench midE reach_midE rfl (Or.inl rfl)⟩

/-- Claim C5: a waitPerformance caller blocked waiting for the pass to begin
when teardown runs is woken by the destructor's testStart.wakeAll but, since
the destructor toggles testRunning back to false under the same hold of the
mutex, re-checks !testRunning and re-enters testStart.wait; it is never
woken again.  In the reachable final state of scenario D teardown has fully
completed (worker done and cleaned, destructor returned dDone) while client
A is still blocked at wpWaitTS, and no step is enabled (by step_enabled,
deadlock): the caller is left blocked for ever, contradicting the claim. -/
theorem begin_waiter_blocked_after_teardown :
    Reach initD finD ∧ finD.apc = CPc.wpWaitTS ∧ finD.bpc = CPc.dDone
    ∧ finD.wpc = WPc.done ∧ finD.cleaned = true
    ∧ stepEnabled finD = false :=
  ⟨reach_finD, rfl, rfl, rfl, rfl, by decide⟩

/-- Claim C6, counterexample: the run loop's wait for a new pass request is
not guarded by re-checking a request flag in a loop.  In the reachable final
state of scenario B a request has been recorded and never serviced
(reqCount = 2 wakeups fired, served = 1 wait exits), yet the worker is
blocked in newLoop.wait and no step is enabled (by step_enabled, deadlock).
Under the claimed wait-while-flag-unset-re-check-under-lock pattern the
worker could not remain blocked with the guarding condition (a pending
request) satisfied; the pattern holds only for the other two signals. -/
theorem newLoop_wait_unguarded_deadlock :
    Reach initB finB ∧ finB.reqCount = 2 ∧ finB.served = 1
    ∧ finB.wpc = WPc.waitNewLoop ∧ stepEnabled finB = false :=
  ⟨reach_finB, rfl, rfl, rfl, by decide⟩

theorem guard_ready_a {s t : St} (hst : Step s t) (w : Bool)
    (h1 : s.apc = CPc.tpRecheck w) (h2 : t.apc ≠ CPc.tpWaitReady w)
    (h3 : t.apc ≠ CPc.tpRecheck w) : s.deviceReady = true := by
  cases hst <;>
    simp_all [wakeAllReady, wakeAllTS, wakeAllTF, wakeReady1, wakeTS1,
      wakeTF1, destructCS, wakeOneReady, wakeROne, fireNewLoopWake,
      tpEnterA, tpEnterB, startPc, markUpd, req2Upd]

theorem guard_ts_a {s t : St} (hst : Step s t)
    (h1 : s.apc = CPc.wpRecheckTS) (h2 : t.apc = CPc.wpWaitTF) :
    s.testRunning = true := by
  cases hst <;>
    simp_all [wakeAllReady, wakeAllTS, wakeAllTF, wakeReady1, wakeTS1,
      wakeTF1, destructCS, wakeOneReady, wakeROne, fireNewLoopWake,
      tpEnterA, tpEnterB, startPc, markUpd, req2Upd]

theorem guard_tf_a {s t : St} (hst : Step s t)
    (h1 : s.apc = CPc.wpRecheckTF) (h2 : t.apc = CPc.idle) :
    s.testRunning = false := by
  cases hst <;>
    simp_all [wakeAllReady, wakeAllTS, wakeAllTF, wakeReady1, wakeTS1,
      wakeTF1, destructCS, wakeOneReady, wakeROne, fireNewLoopWake,
      tpEnterA, tpEnterB, startPc, markUpd, req2Upd]

theorem guard_ready_b {s t : St} (hst : Step s t) (w : Bool)
    (h1 : s.bpc = CPc.tpRecheck w) (h2 : t.bpc ≠ CPc.tpWaitReady w)
    (h3 : t.bpc ≠ CPc.tpRecheck w) : s.deviceReady = true := by
  cases hst <;>
    simp_all [wakeAllReady, wakeAllTS, wakeAllTF, wakeReady1, wakeTS1,
      wakeTF1, destructCS, wakeOneReady, wakeROne, fireNewLoopWake,
      tpEnterA, tpEnterB, startPc, markUpd, req2Upd]

theorem guard_ts_b {s t : St} (hst : Step s t)
    (h1 : s.bpc = CPc.wpRecheckTS) (h2 : t.bpc = CPc.wpWaitTF) :
    s.testRunning = true := by
  cases hst <;>
    simp_all [wakeAllReady, wakeAllTS, wakeAllTF, wakeReady1, wakeTS1,
      wakeTF1, destructCS, wakeOneReady, wakeROne, fireNewLoopWake,
      tpEnterA, tpEnterB, startPc, markUpd, req2Upd]

theorem guard_tf_b {s t : St} (hst : Step s t)
    (h1 : s.bpc = CPc.wpRecheckTF) (h2 : t.bpc = CPc.idle) :
    s.testRunning = false := by
  cases hst <;>
    simp_all [wakeAllReady, wakeAllTS, wakeAllTF, wakeReady1, wakeTS1,
      wakeTF1, destructCS, wakeOneReady, wakeROne, fireNewLoopWake,
      tpEnterA, tpEnterB, startPc, markUpd, req2Upd]

/-- Claim C6, amended: the waits on the became-ready and pass-begin/end
signals are flag-guarded loops: in any step, a client woken from
readyForWork.wait either re-enters the wait or stays at the re-check unless
deviceReady is true; one woken from testStart.wait proceeds towards the
end-wait only when testRunning is true; one woken from testFinish.wait
returns only when testRunning is false.  The run loop's wait on the
new-pass-requested signal, however, is a bare unguarded wait with no flag
re-checked in a loop, so a request whose wakeOne fires while the worker is
not blocked in the wait is lost for ever (see the counterexample). -/
theorem flag_guarded_rechecks (s t : St) (hst : Step s t) :
    (∀ w : Bool, s.apc = CPc.tpRecheck w → t.apc ≠ CPc.tpWaitReady w →
       t.apc ≠ CPc.tpRecheck w → s.deviceReady = true)
    ∧ (s.apc = CPc.wpRecheckTS → t.apc = CPc.wpWaitTF → s.testRunning = true)
    ∧ (s.apc = CPc.wpRecheckTF → t.apc = CPc.idle → s.testRunning = false)
    ∧ (∀ w : Bool, s.bpc = CPc.tpRecheck w → t.bpc ≠ CPc.tpWaitReady w →
       t.bpc ≠ CPc.tpRecheck w → s.deviceReady = true)
    ∧ (s.bpc = CPc.wpRecheckTS → t.bpc = CPc.wpWaitTF → s.testRunning = true)
    ∧ (s.bpc = CPc.wpRecheckTF → t.bpc = CPc.idle → s.testRunning = false) :=
  ⟨fun w h1 h2 h3 => guard_ready_a hst w h1 h2 h3,
   fun h1 h2 => guard_ts_a hst h1 h2,
   fun h1 h2 => guard_tf_a hst h1 h2,
   fun w h1 h2 h3 => guard_ready_b hst w h1 h2 h3,
   fun h1 h2 => guard_ts_b hst h1 h2,
   fun h1 h2 => guard_tf_b hst h1 h2⟩

/-- A state with client A woken from testFinish.wait, used as the witness
input for the guarded re-check theorem. -/
def sTF : St := { wpc := WPc.prep, apc := CPc.wpRecheckTF }

theorem flag_guarded_rechecks_witness :
    sTF.apc = CPc.wpRecheckTF
    ∧ Step sTF { sTF with apc := CPc.idle, awpDone := true }
    ∧ sTF.testRunning = false :=
  ⟨rfl, Step.aWpTF_F sTF rfl rfl,
    (flag_guarded_rechecks sTF _ (Step.aWpTF_F sTF rfl rfl)).2.2.1 rfl rfl⟩

/-- Claim C7: testPerformance is non-blocking.  From every reachable state
of a destructor-free system in which client A is about to call
testPerformance(i), there is a finite completion of the call after which A
has returned, the member index records i, and no benchmark pass has started
or completed in between: the call never waits for the requested pass to
start or to finish (its only wait is for the one-time device preparation,
released by the prepare/signal phase). -/
theorem testPerformance_nonblocking (aS bS : List Call) (s : St) (i : Int)
    (rest : List Call) (ha : NoDestruct aS) (hb : NoDestruct bS)
    (hr : Reach (init aS bS) s) (hidle : s.apc = CPc.idle)
    (hscript : s.ascript = Call.testPerf i :: rest) :
    ∃ t, Relation.ReflTransGen Step s t ∧ t.apc = CPc.idle
      ∧ t.ascript = rest ∧ t.index = i ∧ t.started = s.started
      ∧ t.finished = s.finished := by
  obtain ⟨hB, hC, hW⟩ := invDF_reach ha hb hr
  obtain ⟨b1, b2, b3, b4, b5, b6, b7, b8, b9, b10⟩ := hB
  have hre : restartPc s.wpc = s.wpc := by simp [restartPc, b9]
  have hst1 : Step s { s with apc := CPc.tpCS i false, ascript := rest } :=
    Step.aDisp s (Call.testPerf i) rest hidle hscript
  by_cases hready : s.deviceReady = true
  · exact ⟨_, Relation.ReflTransGen.head hst1
      (Relation.ReflTransGen.single
        (Step.aTpReady _ i false rfl hready)),
      rfl, rfl, rfl, rfl, rfl⟩
  · have hready' : s.deviceReady = false := by
      cases hdr : s.deviceReady
      · rfl
      · exact absurd hdr hready
    have hwpc : s.wpc = WPc.prep ∨ s.wpc = WPc.cs1 := by
      by_contra hcon
      push_neg at hcon
      exact hready (b6.mpr ⟨hcon.1, hcon.2⟩)
    have hst2 : Step { s with apc := CPc.tpCS i false, ascript := rest }
        { tpEnterA i false { s with apc := CPc.tpCS i false, ascript := rest }
          with apc := CPc.tpWaitReady false } :=
      Step.aTpNotReady _ i false rfl hready'
    rcases hwpc with hwpc | hwpc
    · exact ⟨_, Relation.ReflTransGen.head hst1
        (Relation.ReflTransGen.head hst2
        (Relation.ReflTransGen.head
          (Step.wPrep _ true (hre.trans hwpc))
        (Relation.ReflTransGen.head (Step.wCs1 _ rfl)
        (Relation.ReflTransGen.single
          (Step.aTpRecheckReady _ false rfl rfl))))),
        rfl, rfl, rfl, rfl, rfl⟩
    · exact ⟨_, Relation.ReflTransGen.head hst1
        (Relation.ReflTransGen.head hst2
        (Relation.ReflTransGen.head
          (Step.wCs1 _ (hre.trans hwpc))
        (Relation.ReflTransGen.single
          (Step.aTpRecheckReady _ false rfl rfl)))),
        rfl, rfl, rfl, rfl, rfl⟩

theorem testPerformance_nonblocking_witness :
    (init [Call.testPerf 3] []).apc = CPc.idle
    ∧ (∃ t, Relation.ReflTransGen Step (init [Call.testPerf 3] []) t
        ∧ t.apc = CPc.idle ∧ t.ascript = [] ∧ t.index = 3
        ∧ t.started = (init [Call.testPerf 3] []).started
        ∧ t.finished = (init [Call.testPerf 3] []).finished) :=
  ⟨rfl, testPerformance_nonblocking [Call.testPerf 3] [] _ 3 []
    (by unfold NoDestruct; decide) (by unfold NoDestruct; decide)
    Relation.ReflTransGen.refl rfl rfl⟩

/-- Erase the measurement data (the fields CZCudaCalcDeviceBandwidth and
CZCudaCalcDevicePerformance write) from a state, leaving the control part. -/
def eraseMeas (s : St) : St :=
  { s with bwVal := 0, pfVal := 0, anySuccess := false }

/-- Successor of the bench step when updateInfo returns -1. -/
def benchFailTgt (s : St) : St := { s with wpc := WPc.lock3 }

/-- Successor of the bench step when updateInfo succeeds with values bw, pf. -/
def benchOkTgt (bw pf : Nat) (s : St) : St :=
  { s with bwVal := bw, pfVal := pf, anySuccess := true, wpc := WPc.lock3 }

theorem zero_before_success {aS bS : List Call} {s : St}
    (hr : Reach (init aS bS) s) (hz : s.anySuccess = false) :
    s.bwVal = 0 ∧ s.pfVal = 0 := by
  induction hr with
  | refl => exact ⟨rfl, rfl⟩
  | tail hsteps hstep ih =>
      cases hstep <;>
        simp_all [wakeAllReady, wakeAllTS, wakeAllTF, fireNewLoopWake,
          tpEnterA, tpEnterB, destructCS, wakeOneReady, markUpd, req2Upd]

/-- Claim C9: a failing prepare, benchmark or cleanup operation is neither
retried nor routed to a distinct error path.  The benchmark step has, from
any state at the invocation point, both a failing and a succeeding
successor, and the two successors agree on everything except the measured
record fields — the worker continues its normal sequence (the upcoming
testRunning clear, testFinish wakeAll, and conditional emit) identically.
The prepare and cleanup steps ignore their result entirely: any result
leads to the same successor.  Finally, while no measurement has succeeded
the record's measurement fields are still at their zero-initialised
values. -/
theorem failure_not_retried :
    (∀ (s : St) (bw pf : Nat), s.wpc = WPc.bench →
      Step s (benchFailTgt s) ∧ Step s (benchOkTgt bw pf s)
      ∧ eraseMeas (benchFailTgt s) = eraseMeas (benchOkTgt bw pf s))
    ∧ (∀ (s : St) (r : Bool), s.wpc = WPc.prep →
        Step s { s with wpc := WPc.cs1 })
    ∧ (∀ (s : St) (r : Bool), s.wpc = WPc.clean →
        Step s { s with cleaned := true, wpc := WPc.done })
    ∧ (∀ (aS bS : List Call) (s : St), Reach (init aS bS) s →
        s.anySuccess = false → s.bwVal = 0 ∧ s.pfVal = 0) :=
  ⟨fun s bw pf h => ⟨Step.wBenchFail s h, Step.wBenchOk s bw pf h, rfl⟩,
   fun s r h => Step.wPrep s r h,
   fun s r h => Step.wClean s r h,
   fun _ _ _ hr hz => zero_before_success hr hz⟩

/-- A state at the benchmark invocation point, witness input for the
failure-handling theorem. -/
def sBench : St := { wpc := WPc.bench }

theorem failure_not_retried_witness :
    sBench.wpc = WPc.bench
    ∧ Step sBench (benchFailTgt sBench)
    ∧ Step sBench (benchOkTgt 3 4 sBench)
    ∧ eraseMeas (benchFailTgt sBench) = eraseMeas (benchOkTgt 3 4 sBench)
    ∧ ((init [] []).anySuccess = false →
        (init [] []).bwVal = 0 ∧ (init [] []).pfVal = 0) :=
  ⟨rfl, (failure_not_retried.1 sBench 3 4 rfl).1,
    (failure_not_retried.1 sBench 3 4 rfl).2.1,
    (failure_not_retried.1 sBench 3 4 rfl).2.2,
    fun hz => failure_not_retried.2.2.2 [] [] _ Relation.ReflTransGen.refl hz⟩

/-- Claim C10: updateInfo short-circuits on a bandwidth failure.  If the
bandwidth measurement returns -1 then updateInfo returns -1 and the
compute-throughput measurement is not invoked; otherwise the result is
exactly the throughput measurement's result and both operations run. -/
theorem updateInfo_shortCircuit (bw pf : Int) :
    (updateInfo bw pf).1 = (if bw = -1 then -1 else pf)
    ∧ ((updateInfo bw pf).2 = [SdkOp.calcBandwidth] ↔ bw = -1)
    ∧ (SdkOp.calcPerformance ∈ (updateInfo bw pf).2 ↔ bw ≠ -1) := by
  unfold updateInfo
  by_cases h : bw = -1 <;> simp [h]

end CudaZ
